import Mathlib

/-!
Shallow embedding of the XBridge atomic-swap session engine
(`src/xbridge/xbridgesession.cpp` of blocknetdx/bitcoin) together with the
parts of its data model that the session code relies on.

Modelling conventions:
* packets are modelled after parsing (the byte-level framing and the size
  checks have no logical content for the properties below); each packet
  carries the attached sender public key and a boolean saying whether the
  attached signature verifies under that key — an ECDSA signature verifies
  under at most one key, so `verify k = sigOk && pubkey == k` is a faithful
  abstraction of `XBridgePacket::verify(pub)`;
* every wallet / RPC collaborator (`WalletConnector`, `ServiceNodeMgr`,
  `rpc::storeDataIntoBlockchain`, the hash writer) is an oracle field of
  `ClientEnv`; the session logic itself is translated line by line;
* C++ `double` amounts are modelled as `ℚ`; `uint64` fixed-point amounts as
  `Nat`; byte vectors as `List Nat`;
* timestamps (`updateTimestamp`) and log output are not observable by any
  property below and are omitted.
-/

namespace XBridge

abbrev Bytes := List Nat
abbrev Currency := String

/-- Modelled from the spec: the order state enum of the trader-side order
record (`TransactionDescr`, whose header is not part of the extracted
sources).  The spec fixes the progression
`trNew → trPending → trAccepting → trHold → trInitialized → trCreated →
trCommited → trFinished` plus the terminal states
`trCancelled, trRollback, trRollbackFailed, trDropped, trExpired`; the
terminal states carry larger numeric values than every running state, which
is what the handlers' `state >= target` guards compare. -/
inductive TxState where
  | trNew
  | trPending
  | trAccepting
  | trHold
  | trInitialized
  | trCreated
  | trCommited
  | trFinished
  | trCancelled
  | trRollback
  | trRollbackFailed
  | trDropped
  | trExpired
  deriving DecidableEq, Repr

/-- Numeric value of a state, mirroring the C++ enum ordering used by the
`state >= target` guards. -/
def TxState.toNat : TxState → Nat
  | .trNew => 0
  | .trPending => 1
  | .trAccepting => 2
  | .trHold => 3
  | .trInitialized => 4
  | .trCreated => 5
  | .trCommited => 6
  | .trFinished => 7
  | .trCancelled => 8
  | .trRollback => 9
  | .trRollbackFailed => 10
  | .trDropped => 11
  | .trExpired => 12

/-- Cancel reason codes (`TxCancelReason`). -/
inductive TxCancelReason where
  | crUnknown
  | crBadAddress
  | crBadUtxo
  | crBadADepositTx
  | crBadBDepositTx
  | crBlocknetError
  | crRpcError
  | crNoMoney
  | crInvalidAddress
  | crTimeout
  | crRollback
  | crUserRequest
  deriving DecidableEq, Repr

/-- `wallet::UtxoEntry`. -/
structure UtxoEntry where
  txId : String
  vout : Nat
  rawAddress : Bytes
  address : String
  amount : ℚ
  signature : Bytes
  deriving DecidableEq, Repr

/-- The all-zero `wallet::UtxoEntry` used as the initial value of the
`largestUtxo` accumulator in the deposit builders. -/
def emptyUtxo : UtxoEntry := ⟨"", 0, [], "", 0, []⟩

/-- `xbridge::XTxIn`. -/
structure XTxIn where
  txid : String
  vout : Nat
  amount : ℚ
  deriving DecidableEq, Repr

/-- `TransactionDescr::COIN` (fixed point: 1 coin = 10^8 units). -/
def COIN : ℚ := 100000000

/-- Outcome of `WalletConnector::sendRawTransaction`: success with the sent
txid, or failure with the RPC error code. -/
inductive SendResult where
  | ok (txid : String)
  | err (code : Int)
  deriving DecidableEq, Repr

def RPC_MISC_ERROR : Int := -1
def RPC_VERIFY_ERROR : Int := -25
def RPC_VERIFY_ALREADY_IN_CHAIN : Int := -27

/-- The trader-side order record (`TransactionDescr`).  Field inventory
follows the spec's data model (§3, order - trader view); the header itself
is not among the extracted sources. -/
structure TransactionDescr where
  id : Nat
  role : Char
  state : TxState
  reason : TxCancelReason
  isLocal : Bool
  fromAddr : Bytes
  fromCurrency : Currency
  fromAmount : Nat
  toAddr : Bytes
  toCurrency : Currency
  toAmount : Nat
  mPubKey : Bytes
  mPrivKey : Bytes
  oPubKey : Bytes
  sPubKey : Bytes
  xPubKey : Bytes
  oHashedSecret : Bytes
  lockTime : Nat
  opponentLockTime : Nat
  lockScript : Bytes
  lockP2SHAddress : String
  binTx : String
  binTxId : String
  binTxVout : Nat
  refTx : String
  refTxId : String
  refundAddr : String
  rawFeeTx : String
  usedCoins : List UtxoEntry
  feeUtxos : List UtxoEntry
  sentDepositFlag : Bool
  redeemedCounterparty : Bool
  secret : Option Bytes
  payTx : String
  payTxId : String
  oBinTxId : String
  oBinTxVout : Nat
  unlockScript : Bytes
  unlockP2SHAddress : String
  oOverpayment : ℚ
  hubAddress : Bytes
  otherPayTxTries : Nat
  maxOtherPayTxTries : Nat
  doneWatchingFlag : Bool
  otherPayTxId : String
  watchBlock : Nat
  blockHash : Nat
  created : Nat
  deriving DecidableEq, Repr

/-- A blank order record (all fields zeroed), the state a freshly
constructed `TransactionDescr` is in before the handler fills it. -/
def blankDescr : TransactionDescr :=
  { id := 0, role := ' ', state := .trNew, reason := .crUnknown, isLocal := false
    fromAddr := [], fromCurrency := "", fromAmount := 0
    toAddr := [], toCurrency := "", toAmount := 0
    mPubKey := [], mPrivKey := [], oPubKey := [], sPubKey := [], xPubKey := []
    oHashedSecret := [], lockTime := 0, opponentLockTime := 0
    lockScript := [], lockP2SHAddress := "", binTx := "", binTxId := ""
    binTxVout := 0, refTx := "", refTxId := "", refundAddr := "", rawFeeTx := ""
    usedCoins := [], feeUtxos := [], sentDepositFlag := false
    redeemedCounterparty := false, secret := none, payTx := "", payTxId := ""
    oBinTxId := "", oBinTxVout := 0, unlockScript := [], unlockP2SHAddress := ""
    oOverpayment := 0, hubAddress := [], otherPayTxTries := 0
    maxOtherPayTxTries := 0, doneWatchingFlag := false, otherPayTxId := ""
    watchBlock := 0, blockHash := 0, created := 0 }

/-- Modelled from the spec: the Hub's per-order state machine states
(`xbridge::Transaction`, not among the extracted sources).  Only the states
the session code inspects are needed. -/
inductive HubState where
  | hubNew
  | hubJoined
  | hubHold
  | hubInitialized
  | hubCreated
  | hubFinished
  | hubCancelled
  | hubDropped
  deriving DecidableEq, Repr

/-- Modelled from the spec: the Hub's view of an order (`ExchangeOrder`,
spec §3): both sides' addresses, currencies, amounts, keys and UTXO
commitments. -/
structure HubTx where
  id : Nat
  state : HubState
  aAddress : Bytes
  aDestination : Bytes
  aCurrency : Currency
  aAmount : Nat
  aPk1 : Bytes
  aUtxos : List UtxoEntry
  bAddress : Bytes
  bDestination : Bytes
  bCurrency : Currency
  bAmount : Nat
  bPk1 : Bytes
  bUtxos : List UtxoEntry
  blockHash : Nat
  createdTime : Nat
  deriving DecidableEq, Repr

/-- Modelled from the spec: the Hub's `OrderRegistry` (`Exchange`), an
in-memory map from order id to order record split into `pending`
(advertised) and `active` (accepted) sets. -/
structure Exchange where
  enabled : Bool
  started : Bool
  pendingTxs : List (Nat × HubTx)
  activeTxs : List (Nat × HubTx)
  deriving DecidableEq, Repr

/-- `Exchange::pendingTransaction` (spec-modelled lookup). -/
def Exchange.pendingTransaction (e : Exchange) (id : Nat) : Option HubTx :=
  (e.pendingTxs.find? (fun p => p.1 = id)).map (·.2)

/-- `Exchange::transaction` — lookup among accepted (active) orders
(spec-modelled). -/
def Exchange.transaction (e : Exchange) (id : Nat) : Option HubTx :=
  (e.activeTxs.find? (fun p => p.1 = id)).map (·.2)

/-- `Exchange::deletePendingTransaction` (spec-modelled). -/
def Exchange.deletePendingTransaction (e : Exchange) (id : Nat) : Exchange :=
  { e with pendingTxs := e.pendingTxs.filter (fun p => p.1 ≠ id) }

/-- Effect of `tx->cancel()` followed by `deletePendingTransaction` as done
by the Hub-side `sendCancelTransaction(TransactionPtr)` (spec-modelled):
the order leaves the pending set and an active copy, if any, is marked
cancelled. -/
def Exchange.cancelHubTx (e : Exchange) (id : Nat) : Exchange :=
  { e with
    pendingTxs := e.pendingTxs.filter (fun p => p.1 ≠ id)
    activeTxs := e.activeTxs.map (fun p =>
      if p.1 = id then (p.1, { p.2 with state := .hubCancelled }) else p) }

/-- Commands of the wire protocol (`XBridgeCommand`). -/
inductive XCmd where
  | xbcTransaction
  | xbcPendingTransaction
  | xbcTransactionAccepting
  | xbcTransactionHold
  | xbcTransactionHoldApply
  | xbcTransactionInit
  | xbcTransactionInitialized
  | xbcTransactionCreateA
  | xbcTransactionCreatedA
  | xbcTransactionCreateB
  | xbcTransactionCreatedB
  | xbcTransactionConfirmA
  | xbcTransactionConfirmedA
  | xbcTransactionConfirmB
  | xbcTransactionConfirmedB
  | xbcTransactionCancel
  | xbcTransactionFinished
  deriving DecidableEq, Repr

/-- A packet emitted by a handler (command and subject order id). -/
structure SentPacket where
  cmd : XCmd
  orderId : Nat
  deriving DecidableEq, Repr

/-- The signature data attached to a received packet: the sender public key
and whether the attached signature verifies under that key. -/
structure PacketSig where
  pubkey : Bytes
  sigOk : Bool
  deriving DecidableEq, Repr

/-- `XBridgePacket::verify(pub)`: the signature is valid and was made by
`pub` (a signature verifies under at most one key). -/
def PacketSig.verify (s : PacketSig) (k : Bytes) : Bool :=
  s.sigOk && s.pubkey == k

/-- Input of the canonical order-id hash (I1): the fields fed to the
`CHashWriter` in `processTransaction`. -/
structure HashInput where
  saddrStr : String
  scurrency : Currency
  samount : Nat
  daddrStr : String
  dcurrency : Currency
  damount : Nat
  timestamp : Nat
  blockHash : Nat
  firstUtxoSig : Bytes
  deriving DecidableEq, Repr

/-- The wallet / chain / registry collaborators of the session, as oracles.
`chainBlocks` is the chain's actual height; `getInfoOk` says whether the
`getInfo` RPC reaches the wallet (the session sees the height only when it
does). -/
structure ClientEnv where
  myid : Bytes
  hasConnector : Currency → Bool
  snodeKeyValid : Bytes → Bool
  snodeKnown : Bytes → Bool
  minTxFee1 : Currency → Nat → Nat → ℚ
  minTxFee2 : Currency → Nat → Nat → ℚ
  lockTimeFor : Currency → Char → Nat
  acceptableLockTimeDrift : Currency → Char → Nat → Bool
  getNewAddress : Currency → Option String
  createDepositTransaction :
    Currency → List XTxIn → List (String × ℚ) → Option (String × Nat × String)
  createRefundTransaction :
    Currency → List XTxIn → List (String × ℚ) → Bytes → Nat →
      Option (String × String)
  createPaymentTransaction :
    Currency → List XTxIn → List (String × ℚ) → Bytes → Bytes →
      Option (String × String)
  checkDepositTransaction : Currency → String → ℚ → Option (Nat × ℚ × Bool)
  getSecretFromPaymentTransaction :
    Currency → String → String → Nat → Bytes → Option (Bytes × Bool)
  sendRawTransaction : Currency → String → SendResult
  chainBlocks : Currency → Nat
  getInfoOk : Currency → Bool
  storeDataIntoBlockchain : String → Option Nat
  isDustAmount : Currency → ℚ → Bool
  getKeyId : Bytes → Bytes
  createDepositUnlockScript : Bytes → Bytes → Bytes → Nat → Bytes
  p2shAddress : Bytes → String
  fromXAddr : Currency → Bytes → String
  getTxOut : Currency → String → Nat → Option ℚ
  verifyUtxoSig : Currency → UtxoEntry → Bool
  checkUtxoItems : Nat → List UtxoEntry → Bool
  updateTimestampOrRemoveExpired : Nat → Bool
  makerUtxosAreStillValid : List UtxoEntry → Bool
  hashFn : HashInput → Nat

/-- Application-wide mutable state observed by the handlers: the exchange
registry, the wallet's locked-coin pools (I7), parked (retry-later)
packets, the order history and the Watchdog subscriptions. -/
structure AppSt where
  exch : Exchange
  lockedCoins : List (Currency × UtxoEntry)
  lockedFeeUtxos : List UtxoEntry
  parked : List Nat
  history : List Nat
  watchingSpent : List Nat
  deriving DecidableEq, Repr

/-- `App::unlockCoins`. -/
def AppSt.unlockCoins (a : AppSt) (c : Currency) (coins : List UtxoEntry) : AppSt :=
  { a with lockedCoins := a.lockedCoins.filter (fun p => ¬(p.1 = c ∧ p.2 ∈ coins)) }

/-- `App::unlockFeeUtxos`. -/
def AppSt.unlockFeeUtxos (a : AppSt) (coins : List UtxoEntry) : AppSt :=
  { a with lockedFeeUtxos := a.lockedFeeUtxos.filter (fun u => u ∉ coins) }

/-- `App::removePackets`. -/
def AppSt.removePackets (a : AppSt) (id : Nat) : AppSt :=
  { a with parked := a.parked.filter (fun i => i ≠ id) }

/-- `App::processLater` — park the packet on the retry queue. -/
def AppSt.processLater (a : AppSt) (id : Nat) : AppSt :=
  { a with parked := a.parked ++ [id] }

/-- `App::moveTransactionToHistory`. -/
def AppSt.moveTransactionToHistory (a : AppSt) (id : Nat) : AppSt :=
  { a with history := a.history ++ [id] }

/-- `App::watchForSpentDeposit`. -/
def AppSt.watchForSpentDeposit (a : AppSt) (id : Nat) : AppSt :=
  { a with watchingSpent := a.watchingSpent ++ [id] }

/-- `App::unwatchSpentDeposit`. -/
def AppSt.unwatchSpentDeposit (a : AppSt) (id : Nat) : AppSt :=
  { a with watchingSpent := a.watchingSpent.filter (fun i => i ≠ id) }

/-- Result of a trader-side packet handler: the updated local order (if
known), the application state, the C++ `bool` return, the packets it sent,
and — for the deposit builders — the `(inputs, outputs)` passed to
`createDepositTransaction`. -/
structure TraderOut where
  xtx : Option TransactionDescr
  app : AppSt
  ret : Bool
  sent : List SentPacket
  depositCall : Option (List XTxIn × List (String × ℚ))
  deriving DecidableEq, Repr

/-- A handler outcome that drops the packet: nothing sent, nothing changed,
`true` returned. -/
def dropT (app : AppSt) (xtx : Option TransactionDescr) : TraderOut :=
  ⟨xtx, app, true, [], none⟩

/-- A handler outcome that rejects the packet (`return false`) without
touching any state. -/
def failT (app : AppSt) (xtx : Option TransactionDescr) : TraderOut :=
  ⟨xtx, app, false, [], none⟩

/-- Result of `Session::Impl::redeemOrderDeposit`: the mutated order, the
boolean return, and whether `sendRawTransaction` was invoked on the refund
transaction. -/
structure RedeemOut where
  xtx : TransactionDescr
  ok : Bool
  broadcastAttempted : Bool
  deriving DecidableEq, Repr

/-- `Session::Impl::redeemOrderDeposit` — drive the refund of our own
deposit during rollback.  Note that in the source the `errCode` received
from `sendRawTransaction` is a local variable shadowing the out-parameter,
and no RPC error code is inspected on this path. -/
def redeemOrderDeposit (env : ClientEnv) (xtx : TransactionDescr) : RedeemOut :=
  if ¬ env.hasConnector xtx.fromCurrency then ⟨xtx, false, false⟩
  else if xtx.state.toNat < TxState.trCreated.toNat then ⟨xtx, true, false⟩
  else if xtx.refTx = "" then ⟨xtx, true, false⟩
  else
    if env.getInfoOk xtx.fromCurrency ∧
        env.chainBlocks xtx.fromCurrency < xtx.lockTime then
      ⟨xtx, false, false⟩
    else
      match env.sendRawTransaction xtx.fromCurrency xtx.refTx with
      | .ok _ => ⟨{ xtx with state := .trRollback }, true, true⟩
      | .err _ => ⟨{ xtx with state := .trRollbackFailed }, false, true⟩

/-- Result of `Session::Impl::redeemOrderCounterpartyDeposit`: the mutated
order, the app state (Watchdog subscription), the boolean return and the
out-parameter `errCode`. -/
structure RedeemCpOut where
  xtx : TransactionDescr
  app : AppSt
  ok : Bool
  errCode : Int
  deriving DecidableEq, Repr

/-- `Session::Impl::redeemOrderCounterpartyDeposit` — extract the secret if
necessary, build the payment transaction spending the counterparty's HTLC
and submit it; an `RPC_VERIFY_ALREADY_IN_CHAIN` submission error is treated
as success. -/
def redeemOrderCounterpartyDeposit (env : ClientEnv) (app : AppSt)
    (xtx : TransactionDescr) : RedeemCpOut :=
  if ¬ (env.hasConnector xtx.fromCurrency ∧ env.hasConnector xtx.toCurrency) then
    ⟨xtx, app, false, 0⟩
  else
    let step :=
      match xtx.secret with
      | some _ => some (xtx, app)
      | none =>
        match env.getSecretFromPaymentTransaction xtx.fromCurrency
            xtx.otherPayTxId xtx.binTxId xtx.binTxVout xtx.oHashedSecret with
        | none => none
        | some (_, false) => none
        | some (x, true) =>
          some ({ xtx with secret := some x, doneWatchingFlag := true },
                app.unwatchSpentDeposit xtx.id)
    match step with
    | none => ⟨xtx, app, false, 0⟩
    | some (x1, app1) =>
      let toAddrStr := env.fromXAddr x1.toCurrency x1.toAddr
      let outAmount : ℚ := (x1.toAmount : ℚ) / COIN
      let checkAmount := outAmount
      let inputs : List XTxIn := [⟨x1.oBinTxId, x1.oBinTxVout, checkAmount⟩]
      let outputs : List (String × ℚ) := [(toAddrStr, outAmount + x1.oOverpayment)]
      match env.createPaymentTransaction x1.toCurrency inputs outputs
          (x1.secret.getD []) x1.unlockScript with
      | none => ⟨x1, app1, false, 0⟩
      | some (payTxId, payTx) =>
        let x2 := { x1 with payTxId := payTxId, payTx := payTx }
        match env.sendRawTransaction x2.toCurrency x2.payTx with
        | .ok _ => ⟨{ x2 with redeemedCounterparty := true }, app1, true, 0⟩
        | .err code =>
          if code = RPC_VERIFY_ALREADY_IN_CHAIN then
            ⟨{ x2 with redeemedCounterparty := true }, app1, true, code⟩
          else ⟨x2, app1, false, code⟩

/-- Parsed `xbcTransactionCancel` packet: order id and reason code. -/
structure CancelPacket where
  orderId : Nat
  reason : TxCancelReason
  sig : PacketSig
  deriving DecidableEq, Repr

/-- The `cancel` lambda inside `processTransactionCancel` applied to the
order record: mark `trCancelled` and record the reason. -/
def cancelledDescr (xtx : TransactionDescr) (reason : TxCancelReason) :
    TransactionDescr :=
  { xtx with state := .trCancelled, reason := reason }

/-- The `cancel` lambda inside `processTransactionCancel` applied to the
app state: remove parked packets, unlock the order's coins and — if the fee
transaction was not yet broadcast (`state < trInitialized`) — the fee
UTXOs as well. -/
def cancelApp (app : AppSt) (xtx : TransactionDescr) (id : Nat) : AppSt :=
  let a1 := (app.removePackets id).unlockCoins xtx.fromCurrency xtx.usedCoins
  if xtx.state.toNat < TxState.trInitialized.toNat then
    a1.unlockFeeUtxos xtx.feeUtxos
  else a1

/-- Hub-side `sendCancelTransaction(TransactionPtr)`: cancel the exchange
record, delete it from the pending set and broadcast the cancel packet. -/
def sendCancelHubTr (app : AppSt) (id : Nat) : AppSt × List SentPacket :=
  if ¬ app.exch.started then (app, [])
  else ({ app with exch := app.exch.cancelHubTx id },
        [⟨.xbcTransactionCancel, id⟩])

/-- `Session::Impl::processTransactionCancel`.  The trader-side branch
verifies the packet against the pinned Hub key, the counterparty key and
the trader's own key, then dispatches on the current state exactly as the
source does. -/
def processTransactionCancel (env : ClientEnv) (app : AppSt)
    (xtxOpt : Option TransactionDescr) (p : CancelPacket) : TraderOut :=
  if app.exch.started then
    match (app.exch.pendingTransaction p.orderId).orElse
        (fun _ => app.exch.transaction p.orderId) with
    | none => dropT app xtxOpt
    | some tr =>
      if ¬ p.sig.verify tr.aPk1 ∧ ¬ p.sig.verify tr.bPk1 then dropT app xtxOpt
      else
        let (app1, sent) := sendCancelHubTr app p.orderId
        ⟨xtxOpt, app1, true, sent, none⟩
  else
    match xtxOpt with
    | none => dropT app none
    | some xtx =>
      if ¬ p.sig.verify xtx.sPubKey ∧ ¬ p.sig.verify xtx.oPubKey ∧
          ¬ p.sig.verify xtx.mPubKey then dropT app (some xtx)
      else if ¬ env.hasConnector xtx.fromCurrency then failT app (some xtx)
      else if xtx.state.toNat < TxState.trCreated.toNat then
        ⟨some (cancelledDescr xtx p.reason),
         cancelApp (app.moveTransactionToHistory p.orderId) xtx p.orderId,
         true, [], none⟩
      else if xtx.state = .trCancelled then dropT app (some xtx)
      else if ¬ xtx.sentDepositFlag then
        ⟨some (cancelledDescr xtx p.reason), cancelApp app xtx p.orderId,
         true, [], none⟩
      else if xtx.redeemedCounterparty then dropT app (some xtx)
      else if xtx.refTx = "" then
        ⟨some (cancelledDescr xtx p.reason), cancelApp app xtx p.orderId,
         true, [], none⟩
      else
        let app1 := app.removePackets p.orderId
        let x1 := { xtx with state := .trRollback, reason := p.reason }
        let r := redeemOrderDeposit env x1
        if r.ok then
          ⟨some r.xtx, app1.unlockCoins xtx.fromCurrency xtx.usedCoins,
           true, [], none⟩
        else ⟨some r.xtx, app1.processLater p.orderId, true, [], none⟩

/-- `Session::Impl::sendCancelTransaction(TransactionDescrPtr)`: build a
cancel packet signed with the trader's own key, process the cancel locally
at once, then broadcast it. -/
def sendCancelTransactionDescr (env : ClientEnv) (app : AppSt)
    (xtx : TransactionDescr) (reason : TxCancelReason) : TraderOut :=
  let p : CancelPacket := ⟨xtx.id, reason, ⟨xtx.mPubKey, true⟩⟩
  let r := processTransactionCancel env app (some xtx) p
  { r with sent := r.sent ++ [⟨.xbcTransactionCancel, xtx.id⟩] }

/-- Parsed `xbcTransactionHold` packet. -/
structure HoldPacket where
  hubAddr : Bytes
  orderId : Nat
  sig : PacketSig
  deriving DecidableEq, Repr

/-- `Session::Impl::processTransactionHold`. -/
def processTransactionHold (env : ClientEnv) (app : AppSt)
    (xtxOpt : Option TransactionDescr) (p : HoldPacket) : TraderOut :=
  match xtxOpt with
  | none => dropT app none
  | some xtx =>
    if ¬ p.sig.verify xtx.sPubKey then dropT app (some xtx)
    else if ¬ env.snodeKeyValid p.sig.pubkey then failT app (some xtx)
    else if ¬ env.snodeKnown p.sig.pubkey then dropT app (some xtx)
    else if app.exch.started then
      match app.exch.transaction p.orderId with
      | none => dropT app (some xtx)
      | some tr =>
        if tr.state ≠ .hubJoined then
          ⟨some xtx,
           { app with exch := app.exch.deletePendingTransaction p.orderId },
           true, [], none⟩
        else dropT app (some xtx)
    else if TxState.trHold.toNat ≤ xtx.state.toNat then dropT app (some xtx)
    else if ¬ xtx.isLocal then
      ⟨some { xtx with state := .trFinished },
       app.moveTransactionToHistory p.orderId, true, [], none⟩
    else if ¬ env.hasConnector xtx.toCurrency then dropT app (some xtx)
    else
      ⟨some { xtx with state := .trHold }, app, true,
       [⟨.xbcTransactionHoldApply, p.orderId⟩], none⟩

/-- Parsed `xbcTransactionInit` packet. -/
structure InitPacket where
  thisAddr : Bytes
  hubAddr : Bytes
  orderId : Nat
  fromAddr : Bytes
  fromCurrency : Currency
  fromAmount : Nat
  toAddr : Bytes
  toCurrency : Currency
  toAmount : Nat
  sig : PacketSig
  deriving DecidableEq, Repr

/-- `Session::Impl::processTransactionInit`.  Note the consistency check of
the packet's order fields against the local order rejects only when all
seven disequalities hold at once, exactly as in the source. -/
def processTransactionInit (env : ClientEnv) (app : AppSt)
    (xtxOpt : Option TransactionDescr) (p : InitPacket) : TraderOut :=
  match xtxOpt with
  | none => dropT app none
  | some xtx =>
    if ¬ xtx.isLocal then dropT app (some xtx)
    else if ¬ p.sig.verify xtx.sPubKey then dropT app (some xtx)
    else if TxState.trInitialized.toNat ≤ xtx.state.toNat then dropT app (some xtx)
    else if xtx.id ≠ p.orderId ∧ xtx.fromAddr ≠ p.fromAddr ∧
        xtx.fromCurrency ≠ p.fromCurrency ∧ xtx.fromAmount ≠ p.fromAmount ∧
        xtx.toAddr ≠ p.toAddr ∧ xtx.toCurrency ≠ p.toCurrency ∧
        xtx.toAmount ≠ p.toAmount then
      dropT app (some xtx)
    else if xtx.role = 'B' then
      if ¬ env.hasConnector xtx.toCurrency then dropT app (some xtx)
      else
        match env.storeDataIntoBlockchain xtx.rawFeeTx with
        | none =>
          { sendCancelTransactionDescr env app xtx .crBlocknetError with
            ret := true }
        | some feetxtd =>
          if feetxtd = 0 then
            ⟨some xtx, app.processLater p.orderId, true, [], none⟩
          else
            ⟨some { xtx with state := .trInitialized },
             app.unlockFeeUtxos xtx.feeUtxos, true,
             [⟨.xbcTransactionInitialized, p.orderId⟩], none⟩
    else
      ⟨some { xtx with state := .trInitialized }, app, true,
       [⟨.xbcTransactionInitialized, p.orderId⟩], none⟩

/-- Parsed `xbcTransactionFinished` packet. -/
structure FinishedPacket where
  orderId : Nat
  sig : PacketSig
  deriving DecidableEq, Repr

/-- `Session::Impl::processTransactionFinished`. -/
def processTransactionFinished (_env : ClientEnv) (app : AppSt)
    (xtxOpt : Option TransactionDescr) (p : FinishedPacket) : TraderOut :=
  match xtxOpt with
  | none => dropT app none
  | some xtx =>
    if ¬ p.sig.verify xtx.sPubKey then dropT app (some xtx)
    else
      ⟨some { xtx with state := .trFinished },
       app.moveTransactionToHistory p.orderId, true, [], none⟩

/-- Parsed `xbcPendingTransaction` packet. -/
structure PendingPacket where
  orderId : Nat
  scurrency : Currency
  samount : Nat
  dcurrency : Currency
  damount : Nat
  hubAddr : Bytes
  created : Nat
  blockHash : Nat
  sig : PacketSig
  deriving DecidableEq, Repr

/-- `Session::Impl::processPendingTransaction`: create the local order
record on first sight — pinning the servicenode public key carried by the
packet into `sPubKey` — or refresh an existing one, rejecting any packet
that does not verify under the already-pinned key. -/
def processPendingTransaction (env : ClientEnv) (app : AppSt)
    (xtxOpt : Option TransactionDescr) (p : PendingPacket) : TraderOut :=
  if app.exch.enabled then dropT app xtxOpt
  else if (match xtxOpt with
           | some ptr => ¬ p.sig.verify ptr.sPubKey
           | none => false : Bool) then dropT app xtxOpt
  else if ¬ p.sig.sigOk then dropT app xtxOpt
  else if ¬ (env.hasConnector p.scurrency ∧ env.hasConnector p.dcurrency) then
    dropT app xtxOpt
  else
    match xtxOpt with
    | some ptr =>
      if TxState.trPending.toNat < ptr.state.toNat then dropT app (some ptr)
      else
        let ptr1 :=
          if ptr.state = .trNew then { ptr with state := TxState.trPending }
          else ptr
        if ptr1.state = .trCancelled then dropT app (some ptr1)
        else ⟨some ptr1, app, true, [], none⟩
    | none =>
      let ptr : TransactionDescr :=
        { blankDescr with
          id := p.orderId
          fromCurrency := p.scurrency
          fromAmount := p.samount
          toCurrency := p.dcurrency
          toAmount := p.damount
          hubAddress := p.hubAddr
          created := p.created
          state := .trPending
          sPubKey := p.sig.pubkey
          blockHash := p.blockHash }
      ⟨some ptr, app, true, [], none⟩

/-- The UTXO-selection loop shared by the two deposit builders: push coins
until `inAmount >= outAmount + fee1 + fee2`, where `fee1` is recomputed for
the current input count at every step.  Returns the selected coins, their
total and the final `fee1` (0 when the coin list is empty). -/
def selectCoinsGo (fee1Fn : Nat → ℚ) (outAmount fee2 : ℚ)
    (used : List UtxoEntry) (inAmount fee1 : ℚ) :
    List UtxoEntry → List UtxoEntry × ℚ × ℚ
  | [] => (used, inAmount, fee1)
  | e :: rest =>
    let used1 := used ++ [e]
    let in1 := inAmount + e.amount
    let f1 := fee1Fn used1.length
    if outAmount + f1 + fee2 ≤ in1 then (used1, in1, f1)
    else selectCoinsGo fee1Fn outAmount fee2 used1 in1 f1 rest

/-- Entry point of the selection loop. -/
def selectCoins (fee1Fn : Nat → ℚ) (outAmount fee2 : ℚ)
    (coins : List UtxoEntry) : List UtxoEntry × ℚ × ℚ :=
  selectCoinsGo fee1Fn outAmount fee2 [] 0 0 coins

/-- The `largestUtxo` accumulator of the deposit builders: the first input
of strictly greatest amount (starting from the all-zero entry). -/
def largestUtxo (coins : List UtxoEntry) : UtxoEntry :=
  coins.foldl (fun acc e => if acc.amount < e.amount then e else acc) emptyUtxo

/-- The output list passed to `createDepositTransaction` by both deposit
builders: the P2SH deposit output carrying `outAmount + fee2`, followed by
a change output of `inAmount - outAmount - fee1 - fee2` to `changeAddr`
exactly when `inAmount > outAmount + fee1 + fee2`. -/
def depositOutputs (p2sh changeAddr : String) (outAmount fee1 fee2 inAmount : ℚ) :
    List (String × ℚ) :=
  [(p2sh, outAmount + fee2)] ++
    (if outAmount + fee1 + fee2 < inAmount then
      [(changeAddr, inAmount - outAmount - fee1 - fee2)]
     else [])

/-- A cancel path of a trader handler: send the cancel (processing it
locally first) and return `true`. -/
def cancelPath (env : ClientEnv) (app : AppSt) (xtx : TransactionDescr)
    (reason : TxCancelReason) : TraderOut :=
  { sendCancelTransactionDescr env app xtx reason with ret := true }

/-- Parsed `xbcTransactionCreateA` packet (`mPubKey` is the counterparty
public key, named as in the source). -/
structure CreateAPacket where
  hubAddr : Bytes
  orderId : Nat
  mPubKey : Bytes
  sig : PacketSig
  deriving DecidableEq, Repr

/-- The tail of `processTransactionCreateA` from the deposit builder on:
build the deposit around the already-prepared order `x3` (lock script and
P2SH address set), build the refund, mark `trCreated`, submit the deposit
and reply `CreatedA` — cancelling with `crRpcError` on any failure. -/
def createATail (env : ClientEnv) (app : AppSt) (x3 : TransactionDescr)
    (outAmount fee1 fee2 inAmount : ℚ) (usedInTx : List UtxoEntry)
    (orderId : Nat) : TraderOut :=
  let largest := largestUtxo usedInTx
  let inputs := usedInTx.map (fun e => XTxIn.mk e.txId e.vout e.amount)
  let outs := depositOutputs x3.lockP2SHAddress largest.address
    outAmount fee1 fee2 inAmount
  let dc := some (inputs, outs)
  match env.createDepositTransaction x3.fromCurrency inputs outs with
  | none => { cancelPath env app x3 .crRpcError with depositCall := dc }
  | some (binTxId, binTxVout, binTx) =>
    let x4 := { x3 with
      binTxId := binTxId, binTxVout := binTxVout, binTx := binTx }
    let refInputs := [XTxIn.mk x4.binTxId x4.binTxVout (outAmount + fee2)]
    let addrOpt :=
      if x4.refundAddr ≠ "" then some x4.refundAddr
      else env.getNewAddress x4.fromCurrency
    match addrOpt with
    | none => { cancelPath env app x4 .crRpcError with depositCall := dc }
    | some addr =>
      match env.createRefundTransaction x4.fromCurrency refInputs
          [(addr, outAmount)] x4.lockScript x4.lockTime with
      | none =>
        { cancelPath env app x4 .crRpcError with depositCall := dc }
      | some (refTxId, refTx) =>
        let x5 := { x4 with
          refTxId := refTxId, refTx := refTx
          state := .trCreated, sentDepositFlag := true }
        match env.sendRawTransaction x5.fromCurrency x5.binTx with
        | .ok _ =>
          ⟨some x5, app, true, [⟨.xbcTransactionCreatedA, orderId⟩], dc⟩
        | .err _ =>
          let x6 := { x5 with sentDepositFlag := false }
          { cancelPath env app x6 .crRpcError with depositCall := dc }

/-- `Session::Impl::processTransactionCreateA` — the Maker builds the HTLC
lock script, the deposit transaction and the refund transaction, submits
the deposit and reports `CreatedA`. -/
def processTransactionCreateA (env : ClientEnv) (app : AppSt)
    (xtxOpt : Option TransactionDescr) (p : CreateAPacket) : TraderOut :=
  match xtxOpt with
  | none => dropT app none
  | some xtx =>
    if ¬ xtx.isLocal then dropT app (some xtx)
    else if ¬ p.sig.verify xtx.sPubKey then dropT app (some xtx)
    else if xtx.role ≠ 'A' then dropT app (some xtx)
    else if TxState.trCreated.toNat ≤ xtx.state.toNat then dropT app (some xtx)
    else if ¬ (env.hasConnector xtx.fromCurrency ∧
        env.hasConnector xtx.toCurrency) then
      cancelPath env app xtx .crRpcError
    else
      let outAmount : ℚ := (xtx.fromAmount : ℚ) / COIN
      let fee2 := env.minTxFee2 xtx.fromCurrency 1 1
      let sel := selectCoins (fun c => env.minTxFee1 xtx.fromCurrency c 3)
        outAmount fee2 xtx.usedCoins
      if sel.2.1 < outAmount + sel.2.2 + fee2 then
        cancelPath env app xtx .crNoMoney
      else
        let x1 := { xtx with
          lockTime := env.lockTimeFor xtx.fromCurrency xtx.role
          opponentLockTime := env.lockTimeFor xtx.toCurrency 'B' }
        if x1.lockTime = 0 ∨ x1.opponentLockTime = 0 then
          cancelPath env app x1 .crRpcError
        else
          let x2 := { x1 with oPubKey := p.mPubKey }
          let lockScript := env.createDepositUnlockScript x2.mPubKey
            x2.oPubKey (env.getKeyId x2.xPubKey) x2.lockTime
          let x3 := { x2 with
            lockScript := lockScript
            lockP2SHAddress := env.p2shAddress lockScript }
          createATail env app x3 outAmount sel.2.2 fee2 sel.2.1 sel.1
            p.orderId

/-- Parsed `xbcTransactionCreateB` packet. -/
structure CreateBPacket where
  hubAddr : Bytes
  orderId : Nat
  mPubKey : Bytes
  binATxId : String
  hx : Bytes
  lockTimeA : Nat
  sig : PacketSig
  deriving DecidableEq, Repr

/-- The tail of `processTransactionCreateB` from the deposit builder on:
like `createATail` but with the Taker's extra steps — a `getInfo` call
before submitting, recording the watch block and subscribing the Watchdog
to the spent-deposit watcher, and replying `CreatedB`. -/
def createBTail (env : ClientEnv) (app : AppSt) (x3 : TransactionDescr)
    (outAmount fee1 fee2 inAmount : ℚ) (usedInTx : List UtxoEntry)
    (orderId : Nat) : TraderOut :=
  let largest := largestUtxo usedInTx
  let inputs := usedInTx.map (fun e => XTxIn.mk e.txId e.vout e.amount)
  let outs := depositOutputs x3.lockP2SHAddress largest.address
    outAmount fee1 fee2 inAmount
  let dc := some (inputs, outs)
  match env.createDepositTransaction x3.fromCurrency inputs outs with
  | none => { cancelPath env app x3 .crRpcError with depositCall := dc }
  | some (binTxId, binTxVout, binTx) =>
    let x4 := { x3 with
      binTxId := binTxId, binTxVout := binTxVout, binTx := binTx }
    let refInputs := [XTxIn.mk x4.binTxId x4.binTxVout (outAmount + fee2)]
    let addrOpt :=
      if x4.refundAddr ≠ "" then some x4.refundAddr
      else env.getNewAddress x4.fromCurrency
    match addrOpt with
    | none => { cancelPath env app x4 .crRpcError with depositCall := dc }
    | some addr =>
      match env.createRefundTransaction x4.fromCurrency refInputs
          [(addr, outAmount)] x4.lockScript x4.lockTime with
      | none =>
        { cancelPath env app x4 .crRpcError with depositCall := dc }
      | some (refTxId, refTx) =>
        let x5 := { x4 with refTxId := refTxId, refTx := refTx }
        if ¬ env.getInfoOk x5.fromCurrency then
          { cancelPath env app x5 .crRpcError with depositCall := dc }
        else
          let x6 := { x5 with state := .trCreated, sentDepositFlag := true }
          match env.sendRawTransaction x6.fromCurrency x6.binTx with
          | .ok _ =>
            let x7 := { x6 with watchBlock := env.chainBlocks x6.fromCurrency }
            ⟨some x7, app.watchForSpentDeposit orderId, true,
             [⟨.xbcTransactionCreatedB, orderId⟩], dc⟩
          | .err _ =>
            let x7 := { x6 with sentDepositFlag := false }
            { cancelPath env app x7 .crRpcError with depositCall := dc }

/-- The middle stage of `processTransactionCreateB`, entered once the
Maker's deposit has been confirmed good on chain A: select the Taker's
coins, record the counterparty deposit data and build the Taker's own lock
script, then continue with `createBTail`. -/
def createBDeposit (env : ClientEnv) (app : AppSt) (x1 : TransactionDescr)
    (counterPartyScript : Bytes) (counterPartyP2SH : String)
    (counterPartyVoutN : Nat) (overpayment : ℚ) (cpPubKey : Bytes)
    (binATxId : String) (orderId : Nat) : TraderOut :=
  let outAmount : ℚ := (x1.fromAmount : ℚ) / COIN
  let fee2 := env.minTxFee2 x1.fromCurrency 1 1
  let sel := selectCoins (fun c => env.minTxFee1 x1.fromCurrency c 3)
    outAmount fee2 x1.usedCoins
  if sel.2.1 < outAmount + sel.2.2 + fee2 then
    cancelPath env app x1 .crNoMoney
  else
    let x2 := { x1 with
      oPubKey := cpPubKey
      oBinTxId := binATxId
      oBinTxVout := counterPartyVoutN
      unlockScript := counterPartyScript
      unlockP2SHAddress := counterPartyP2SH
      oOverpayment := overpayment }
    let lockScript := env.createDepositUnlockScript x2.mPubKey
      x2.oPubKey x2.oHashedSecret x2.lockTime
    let x3 := { x2 with
      lockScript := lockScript
      lockP2SHAddress := env.p2shAddress lockScript }
    createBTail env app x3 outAmount sel.2.2 fee2 sel.2.1 sel.1 orderId

/-- The deposit-verification stage of `processTransactionCreateB`, entered
on the order `x1` already carrying the Maker's hashed secret and the two
locktimes: rebuild the expected counterparty HTLC script, check the
Maker's deposit on chain A (`checkAmount = toAmount / COIN`) — parking the
packet while the chain has not seen it, cancelling with `crBadADepositTx`
when it is bad — and continue with `createBDeposit`. -/
def createBCheck (env : ClientEnv) (app : AppSt) (x1 : TransactionDescr)
    (binATxId : String) (cpPubKey : Bytes) (orderId : Nat) : TraderOut :=
  let checkAmount : ℚ := (x1.toAmount : ℚ) / COIN
  let counterPartyScript := env.createDepositUnlockScript cpPubKey
    x1.mPubKey x1.oHashedSecret x1.opponentLockTime
  match env.checkDepositTransaction x1.toCurrency binATxId checkAmount with
  | none => ⟨some x1, app.processLater orderId, true, [], none⟩
  | some (_, _, false) => cancelPath env app x1 .crBadADepositTx
  | some (counterPartyVoutN, overpayment, true) =>
    createBDeposit env app x1 counterPartyScript
      (env.p2shAddress counterPartyScript) counterPartyVoutN
      overpayment cpPubKey binATxId orderId

/-- `Session::Impl::processTransactionCreateB` — the Taker validates the
Maker's locktime and deposit, then builds and submits its own HTLC deposit
and refund on chain B and reports `CreatedB`. -/
def processTransactionCreateB (env : ClientEnv) (app : AppSt)
    (xtxOpt : Option TransactionDescr) (p : CreateBPacket) : TraderOut :=
  match xtxOpt with
  | none => dropT app none
  | some xtx =>
    if ¬ xtx.isLocal then dropT app (some xtx)
    else if ¬ p.sig.verify xtx.sPubKey then dropT app (some xtx)
    else if TxState.trCreated.toNat ≤ xtx.state.toNat then dropT app (some xtx)
    else if p.binATxId = "" then cancelPath env app xtx .crBadADepositTx
    else if xtx.role ≠ 'B' then dropT app (some xtx)
    else if xtx.xPubKey ≠ [] then dropT app (some xtx)
    else if ¬ (env.hasConnector xtx.fromCurrency ∧
        env.hasConnector xtx.toCurrency) then
      cancelPath env app xtx .crRpcError
    else
      if p.lockTimeA = 0 ∨
          ¬ env.acceptableLockTimeDrift xtx.toCurrency 'A' p.lockTimeA then
        cancelPath env app xtx .crBadADepositTx
      else
        createBCheck env app
          { xtx with
            oHashedSecret := p.hx
            lockTime := env.lockTimeFor xtx.fromCurrency 'B'
            opponentLockTime := p.lockTimeA }
          p.binATxId p.mPubKey p.orderId

/-- Parsed `xbcTransactionConfirmA` packet. -/
structure ConfirmAPacket where
  hubAddr : Bytes
  orderId : Nat
  binTxId : String
  lockTimeB : Nat
  sig : PacketSig
  deriving DecidableEq, Repr

/-- The redeem stage of `processTransactionConfirmA`: drive
`redeemOrderCounterpartyDeposit` on the order `x2` (counterparty deposit
data recorded), parking the packet on `RPC_VERIFY_ERROR` (missing inputs),
cancelling with `crRpcError` on other failures, and on success marking
`trCommited` and replying `ConfirmedA`. -/
def confirmATail (env : ClientEnv) (app : AppSt) (x2 : TransactionDescr)
    (orderId : Nat) : TraderOut :=
  let r := redeemOrderCounterpartyDeposit env app x2
  if ¬ r.ok then
    if r.errCode = RPC_VERIFY_ERROR then
      ⟨some r.xtx, r.app.processLater orderId, true, [], none⟩
    else cancelPath env r.app r.xtx .crRpcError
  else
    ⟨some { r.xtx with state := .trCommited }, r.app, true,
     [⟨.xbcTransactionConfirmedA, orderId⟩], none⟩

/-- The deposit-verification stage of `processTransactionConfirmA` on the
order `x1` already carrying the Taker's locktime: rebuild the expected
counterparty HTLC script, verify the Taker's deposit on chain B — parking
the packet while the chain has not seen it, cancelling with
`crBadBDepositTx` when bad — record the counterparty deposit data and
continue with `confirmATail`. -/
def confirmACheck (env : ClientEnv) (app : AppSt) (x1 : TransactionDescr)
    (binTxId : String) (orderId : Nat) : TraderOut :=
  let checkAmount : ℚ := (x1.toAmount : ℚ) / COIN
  let hx := env.getKeyId x1.xPubKey
  let counterPartyScript := env.createDepositUnlockScript x1.oPubKey
    x1.mPubKey hx x1.opponentLockTime
  let counterPartyP2SH := env.p2shAddress counterPartyScript
  match env.checkDepositTransaction x1.toCurrency binTxId checkAmount with
  | none => ⟨some x1, app.processLater orderId, true, [], none⟩
  | some (_, _, false) => cancelPath env app x1 .crBadBDepositTx
  | some (counterPartyVoutN, overpayment, true) =>
    confirmATail env app
      { x1 with
        oBinTxId := binTxId
        oBinTxVout := counterPartyVoutN
        unlockScript := counterPartyScript
        unlockP2SHAddress := counterPartyP2SH
        oOverpayment := overpayment }
      orderId

/-- `Session::Impl::processTransactionConfirmA` — the Maker verifies the
Taker's deposit and redeems it, revealing the secret. -/
def processTransactionConfirmA (env : ClientEnv) (app : AppSt)
    (xtxOpt : Option TransactionDescr) (p : ConfirmAPacket) : TraderOut :=
  match xtxOpt with
  | none => dropT app none
  | some xtx =>
    if ¬ xtx.isLocal then dropT app (some xtx)
    else if ¬ p.sig.verify xtx.sPubKey then dropT app (some xtx)
    else if TxState.trCommited.toNat ≤ xtx.state.toNat then dropT app (some xtx)
    else if xtx.role ≠ 'A' then dropT app (some xtx)
    else if ¬ (env.hasConnector xtx.fromCurrency ∧
        env.hasConnector xtx.toCurrency) then
      cancelPath env app xtx .crRpcError
    else
      if p.lockTimeB = 0 ∨
          ¬ env.acceptableLockTimeDrift xtx.toCurrency 'B' p.lockTimeB then
        cancelPath env app xtx .crBadBDepositTx
      else
        confirmACheck env app { xtx with opponentLockTime := p.lockTimeB }
          p.binTxId p.orderId

/-- Parsed `xbcTransactionConfirmB` packet. -/
structure ConfirmBPacket where
  hubAddr : Bytes
  orderId : Nat
  payTxId : String
  sig : PacketSig
  deriving DecidableEq, Repr

/-- `Session::Impl::processTransactionConfirmB` — the Taker extracts the
secret from the Maker's spend and redeems the Maker's HTLC. -/
def processTransactionConfirmB (env : ClientEnv) (app : AppSt)
    (xtxOpt : Option TransactionDescr) (p : ConfirmBPacket) : TraderOut :=
  match xtxOpt with
  | none => dropT app none
  | some xtx =>
    if ¬ xtx.isLocal then dropT app (some xtx)
    else if ¬ p.sig.verify xtx.sPubKey then dropT app (some xtx)
    else if TxState.trCommited.toNat ≤ xtx.state.toNat then dropT app (some xtx)
    else
      let x1 :=
        if xtx.otherPayTxTries < xtx.maxOtherPayTxTries ∧
            ¬ xtx.doneWatchingFlag then
          { xtx with
            otherPayTxId := p.payTxId
            otherPayTxTries := xtx.otherPayTxTries + 1 }
        else xtx
      if ¬ (env.hasConnector x1.fromCurrency ∧ env.hasConnector x1.toCurrency) then
        ⟨some x1, app.processLater p.orderId, true, [], none⟩
      else
        let r := redeemOrderCounterpartyDeposit env app x1
        if ¬ r.ok then
          ⟨some r.xtx, r.app.processLater p.orderId, true, [], none⟩
        else
          ⟨some { r.xtx with state := .trCommited }, r.app, true,
           [⟨.xbcTransactionConfirmedB, p.orderId⟩], none⟩

/-- Result of a Hub-side packet handler. -/
structure HubOut where
  exch : Exchange
  ret : Bool
  sent : List SentPacket
  deriving DecidableEq, Repr

/-- A Hub handler outcome that drops the packet. -/
def dropH (e : Exchange) : HubOut := ⟨e, true, []⟩

/-- Modelled from the spec: `Exchange::createTransaction` creates the
ExchangeOrder in the pending set on first valid `Transaction` packet
(`isCreated` reports whether a fresh record was made). -/
def Exchange.createTransaction (e : Exchange) (id : Nat)
    (saddr : Bytes) (scurrency : Currency) (samount : Nat)
    (daddr : Bytes) (dcurrency : Currency) (damount : Nat)
    (timestamp : Nat) (mpubkey : Bytes) (blockHash : Nat) :
    Exchange × Bool :=
  if (e.pendingTransaction id).isSome ∨ (e.transaction id).isSome then (e, false)
  else
    let tx : HubTx :=
      { id := id, state := .hubNew
        aAddress := saddr, aDestination := daddr, aCurrency := scurrency
        aAmount := samount, aPk1 := mpubkey, aUtxos := []
        bAddress := [], bDestination := [], bCurrency := dcurrency
        bAmount := damount, bPk1 := [], bUtxos := []
        blockHash := blockHash, createdTime := timestamp }
    ({ e with pendingTxs := e.pendingTxs ++ [(id, tx)] }, true)

/-- Update the pending record with the given id. -/
def Exchange.updatePending (e : Exchange) (id : Nat) (f : HubTx → HubTx) :
    Exchange :=
  { e with pendingTxs := e.pendingTxs.map (fun p =>
      if p.1 = id then (p.1, f p.2) else p) }

/-- Update the active record with the given id. -/
def Exchange.updateActive (e : Exchange) (id : Nat) (f : HubTx → HubTx) :
    Exchange :=
  { e with activeTxs := e.activeTxs.map (fun p =>
      if p.1 = id then (p.1, f p.2) else p) }

/-- Modelled from the spec: `Exchange::acceptTransaction` joins the first
matching Taker to a pending order — enforcing at-most-one-accept — and
moves the order to the active (accepted) set in state `joined`. -/
def Exchange.acceptTransaction (e : Exchange) (id : Nat)
    (saddr : Bytes) (scurrency : Currency) (samount : Nat)
    (daddr : Bytes) (dcurrency : Currency) (damount : Nat)
    (bpk : Bytes) : Exchange × Bool :=
  if (e.transaction id).isSome then (e, false)
  else
    match e.pendingTransaction id with
    | none => (e, false)
    | some t =>
      if scurrency = t.bCurrency ∧ samount = t.bAmount ∧
          dcurrency = t.aCurrency ∧ damount = t.aAmount then
        let t1 := { t with
          state := .hubJoined
          bAddress := saddr, bDestination := daddr, bPk1 := bpk }
        ({ e with
            pendingTxs := e.pendingTxs.filter (fun p => p.1 ≠ id)
            activeTxs := e.activeTxs ++ [(id, t1)] }, true)
      else (e, false)

/-- Parsed `xbcTransaction` packet (the Maker's order announcement). -/
structure TransactionPacket where
  id : Nat
  saddr : Bytes
  scurrency : Currency
  samount : Nat
  daddr : Bytes
  dcurrency : Currency
  damount : Nat
  timestamp : Nat
  blockHash : Nat
  utxos : List UtxoEntry
  sig : PacketSig
  deriving DecidableEq, Repr

/-- The UTXO-validation loop of the Hub handlers: look each claimed UTXO up
on chain (skipping unknown ones), fill in its amount and address, check its
ownership signature (skipping bad ones), and accumulate the total. -/
def filterUtxos (env : ClientEnv) (cur : Currency) :
    List UtxoEntry → List UtxoEntry × ℚ
  | [] => ([], 0)
  | entry :: rest =>
    let (tailItems, tailAmount) := filterUtxos env cur rest
    match env.getTxOut cur entry.txId entry.vout with
    | none => (tailItems, tailAmount)
    | some amt =>
      let e1 := { entry with
        amount := amt, address := env.fromXAddr cur entry.rawAddress }
      if env.verifyUtxoSig cur e1 then (e1 :: tailItems, e1.amount + tailAmount)
      else (tailItems, tailAmount)

/-- `Session::Impl::processTransaction` (Hub side): validate a new order
announcement — including recomputing the canonical order id (I1) — and
create the pending ExchangeOrder. -/
def processTransaction (env : ClientEnv) (e : Exchange)
    (p : TransactionPacket) : HubOut :=
  if ¬ e.started then dropH e
  else
    match e.pendingTransaction p.id with
    | some t =>
      if env.updateTimestampOrRemoveExpired t.id then
        if ¬ env.makerUtxosAreStillValid t.aUtxos then
          ⟨e.cancelHubTx p.id, false, [⟨.xbcTransactionCancel, p.id⟩]⟩
        else ⟨e, true, [⟨.xbcPendingTransaction, p.id⟩]⟩
      else dropH (e.deletePendingTransaction p.id)
    | none =>
      if ¬ p.sig.sigOk then dropH e
      else if ¬ (env.hasConnector p.scurrency ∧ env.hasConnector p.dcurrency) then
        dropH e
      else
        let (utxoItems, commonAmount) := filterUtxos env p.scurrency p.utxos
        if utxoItems = [] then dropH e
        else if commonAmount * COIN < (p.samount : ℚ) then dropH e
        else if env.isDustAmount p.scurrency ((p.samount : ℚ) / COIN) ∨
            env.isDustAmount p.scurrency
              (commonAmount - (p.samount : ℚ) / COIN) ∨
            env.isDustAmount p.dcurrency ((p.damount : ℚ) / COIN) then
          dropH e
        else
          let saddrStr := env.fromXAddr p.scurrency p.saddr
          let daddrStr := env.fromXAddr p.dcurrency p.daddr
          let firstUtxoSig := (utxoItems.headD emptyUtxo).signature
          let checkId := env.hashFn
            ⟨saddrStr, p.scurrency, p.samount, daddrStr, p.dcurrency,
             p.damount, p.timestamp, p.blockHash, firstUtxoSig⟩
          if checkId ≠ p.id then dropH e
          else if ¬ env.checkUtxoItems p.id utxoItems then dropH e
          else
            let (e1, isCreated) := e.createTransaction p.id p.saddr
              p.scurrency p.samount p.daddr p.dcurrency p.damount
              p.timestamp p.sig.pubkey p.blockHash
            if ¬ isCreated then dropH e1
            else
              let e2 := e1.updatePending p.id
                (fun t => { t with aUtxos := utxoItems })
              if (e2.pendingTransaction p.id).isNone then dropH e2
              else ⟨e2, true, [⟨.xbcPendingTransaction, p.id⟩]⟩

/-- Parsed `xbcTransactionAccepting` packet (the Taker's acceptance). -/
structure AcceptingPacket where
  destAddr : Bytes
  orderId : Nat
  saddr : Bytes
  scurrency : Currency
  samount : Nat
  daddr : Bytes
  dcurrency : Currency
  damount : Nat
  utxos : List UtxoEntry
  sig : PacketSig
  deriving DecidableEq, Repr

/-- `Session::Impl::processTransactionAccepting` (Hub side): join the first
valid Taker to a pending order; a second `Accepting` for an order that is
already accepted is dropped at the very first lookup. -/
def processTransactionAccepting (env : ClientEnv) (e : Exchange)
    (p : AcceptingPacket) : HubOut :=
  if ¬ e.started then dropH e
  else if p.destAddr ≠ env.myid then dropH e
  else if (e.transaction p.orderId).isSome then dropH e
  else if ¬ p.sig.sigOk then dropH e
  else if ¬ env.hasConnector p.scurrency then dropH e
  else
    match e.pendingTransaction p.orderId with
    | none => dropH e
    | some trPending =>
      if ¬ env.hasConnector trPending.aCurrency then dropH e
      else if ¬ trPending.aUtxos.all (fun entry =>
          (env.getTxOut trPending.aCurrency entry.txId entry.vout).isSome) then
        ⟨e.cancelHubTx p.orderId, false, [⟨.xbcTransactionCancel, p.orderId⟩]⟩
      else
        let (utxoItems, commonAmount) := filterUtxos env p.scurrency p.utxos
        if commonAmount * COIN < (p.samount : ℚ) then dropH e
        else if env.isDustAmount p.scurrency ((p.samount : ℚ) / COIN) ∨
            env.isDustAmount p.scurrency
              (commonAmount - (p.samount : ℚ) / COIN) then
          dropH e
        else if ¬ env.checkUtxoItems p.orderId utxoItems then dropH e
        else
          let (e1, accepted) := e.acceptTransaction p.orderId p.saddr
            p.scurrency p.samount p.daddr p.dcurrency p.damount p.sig.pubkey
          if ¬ accepted then dropH e1
          else
            match e1.transaction p.orderId with
            | none => dropH e1
            | some tr =>
              if tr.state ≠ .hubJoined then dropH e1
              else
                let e2 := e1.updateActive p.orderId
                  (fun t => { t with bUtxos := utxoItems })
                ⟨e2, true, [⟨.xbcTransactionHold, p.orderId⟩]⟩

/-! ### Witness fixtures: a concrete oracle environment and app state. -/

/-- A concrete, fully benign oracle environment used by witnesses. -/
def envW : ClientEnv :=
  { myid := [1]
    hasConnector := fun _ => true
    snodeKeyValid := fun _ => true
    snodeKnown := fun _ => true
    minTxFee1 := fun _ _ _ => 0
    minTxFee2 := fun _ _ _ => 0
    lockTimeFor := fun _ r => if r = 'A' then 300 else 250
    acceptableLockTimeDrift := fun _ _ _ => true
    getNewAddress := fun _ => some "refundaddr"
    createDepositTransaction := fun _ _ _ => some ("btxid", 0, "btx")
    createRefundTransaction := fun _ _ _ _ _ => some ("rtxid", "rtx")
    createPaymentTransaction := fun _ _ _ _ _ => some ("ptxid", "ptx")
    checkDepositTransaction := fun _ _ _ => some (0, 0, true)
    getSecretFromPaymentTransaction := fun _ _ _ _ _ => some ([7], true)
    sendRawTransaction := fun _ _ => .ok "sent"
    chainBlocks := fun _ => 1000
    getInfoOk := fun _ => true
    storeDataIntoBlockchain := fun _ => some 5
    isDustAmount := fun _ _ => false
    getKeyId := fun b => 200 :: b
    createDepositUnlockScript := fun a b c d => a ++ b ++ c ++ [d]
    p2shAddress := fun _ => "p2sh"
    fromXAddr := fun _ _ => "addr"
    getTxOut := fun _ _ _ => some 2
    verifyUtxoSig := fun _ _ => true
    checkUtxoItems := fun _ _ => true
    updateTimestampOrRemoveExpired := fun _ => true
    makerUtxosAreStillValid := fun _ => true
    hashFn := fun _ => 99 }

/-- The trader-side exchange registry (exchange disabled and not started). -/
def exchW : Exchange := ⟨false, false, [], []⟩

/-- A concrete app state for witnesses. -/
def appW : AppSt := ⟨exchW, [], [], [], [], []⟩

/-! ### Helper lemmas. -/

/-- Once the cancel path has set `trRollback`, `redeemOrderDeposit` leaves
the state at `trRollback` or escalates it to `trRollbackFailed`. -/
lemma redeem_rollback_lb (env : ClientEnv) (x : TransactionDescr)
    (h : x.state = .trRollback) :
    9 ≤ (redeemOrderDeposit env x).xtx.state.toNat := by
  unfold redeemOrderDeposit
  split_ifs with h1 h2 h3 h4 <;>
    (try simp_all [TxState.toNat]) <;>
    (cases hs : env.sendRawTransaction x.fromCurrency x.refTx <;>
      simp_all [TxState.toNat])

/-- `processTransactionCancel` never regresses the state of an order that
has not yet reached a state beyond `trCancelled`. -/
lemma cancel_state_mono (env : ClientEnv) (app : AppSt)
    (xtx : TransactionDescr) (p : CancelPacket)
    (h8 : xtx.state.toNat ≤ 8) :
    ∀ x1, (processTransactionCancel env app (some xtx) p).xtx = some x1 →
      xtx.state.toNat ≤ x1.state.toNat := by
  intro x1 hx
  have hc8 : TxState.trCancelled.toNat = 8 := rfl
  unfold processTransactionCancel at hx
  by_cases hst : app.exch.started = true
  · simp [hst] at hx
    rcases hmatch : (app.exch.pendingTransaction p.orderId).orElse
        (fun _ => app.exch.transaction p.orderId) with _ | tr <;>
      simp [hmatch, dropT] at hx
    · cases hx; omega
    · split_ifs at hx <;> simp [dropT, sendCancelHubTr] at hx <;>
        simp_all <;> cases hx <;> omega
  · simp [hst] at hx
    split_ifs at hx with hv hc hlt hcanc hsd hred href hok
    · simp only [dropT, Option.some.injEq] at hx; cases hx; omega
    · simp only [failT, Option.some.injEq] at hx; cases hx; omega
    · simp only [Option.some.injEq] at hx; cases hx
      simp only [cancelledDescr]; omega
    · simp only [dropT, Option.some.injEq] at hx; cases hx; omega
    · simp only [Option.some.injEq] at hx; cases hx
      simp only [cancelledDescr]; omega
    · simp only [dropT, Option.some.injEq] at hx; cases hx; omega
    · simp only [Option.some.injEq] at hx; cases hx
      simp only [cancelledDescr]; omega
    · have h9 := redeem_rollback_lb env
        { xtx with state := .trRollback, reason := p.reason } rfl
      simp only [Option.some.injEq] at hx; cases hx; omega
    · have h9 := redeem_rollback_lb env
        { xtx with state := .trRollback, reason := p.reason } rfl
      simp only [Option.some.injEq] at hx; cases hx; omega

/-- For an order already cancelled, a trader-side cancel changes nothing. -/
lemma cancel_cancelled_drop (env : ClientEnv) (app : AppSt)
    (xtx : TransactionDescr) (p : CancelPacket)
    (hst : app.exch.started = false) (h : xtx.state = .trCancelled) :
    (processTransactionCancel env app (some xtx) p).xtx = some xtx ∧
    (processTransactionCancel env app (some xtx) p).app = app ∧
    (processTransactionCancel env app (some xtx) p).sent = [] := by
  unfold processTransactionCancel
  simp only [hst, Bool.false_eq_true, if_false]
  split_ifs <;> simp_all [dropT, failT, TxState.toNat]

/-- A trader-side cancel never touches the exchange registry. -/
lemma cancel_preserves_exch (env : ClientEnv) (app : AppSt)
    (xtx : TransactionDescr) (p : CancelPacket)
    (hst : app.exch.started = false) :
    (processTransactionCancel env app (some xtx) p).app.exch = app.exch := by
  unfold processTransactionCancel
  simp only [hst, Bool.false_eq_true, if_false]
  split_ifs <;>
    simp [dropT, failT, cancelApp, AppSt.removePackets, AppSt.unlockCoins,
      AppSt.unlockFeeUtxos, AppSt.moveTransactionToHistory,
      AppSt.processLater] <;>
    (try (split_ifs <;> rfl))

/-! ### Numeric values of the state enum (for the omega-based proofs). -/

@[simp] lemma toNat_trNew : TxState.trNew.toNat = 0 := rfl
@[simp] lemma toNat_trPending : TxState.trPending.toNat = 1 := rfl
@[simp] lemma toNat_trAccepting : TxState.trAccepting.toNat = 2 := rfl
@[simp] lemma toNat_trHold : TxState.trHold.toNat = 3 := rfl
@[simp] lemma toNat_trInitialized : TxState.trInitialized.toNat = 4 := rfl
@[simp] lemma toNat_trCreated : TxState.trCreated.toNat = 5 := rfl
@[simp] lemma toNat_trCommited : TxState.trCommited.toNat = 6 := rfl
@[simp] lemma toNat_trFinished : TxState.trFinished.toNat = 7 := rfl
@[simp] lemma toNat_trCancelled : TxState.trCancelled.toNat = 8 := rfl
@[simp] lemma toNat_trRollback : TxState.trRollback.toNat = 9 := rfl
@[simp] lemma toNat_trRollbackFailed : TxState.trRollbackFailed.toNat = 10 := rfl

/-- `redeemOrderCounterpartyDeposit` never changes the order's state. -/
lemma redeemCp_state (env : ClientEnv) (app : AppSt) (x : TransactionDescr) :
    (redeemOrderCounterpartyDeposit env app x).xtx.state = x.state := by
  unfold redeemOrderCounterpartyDeposit
  dsimp only
  split_ifs with h1
  · rcases hsec : x.secret with _ | s
    · rcases hg : env.getSecretFromPaymentTransaction x.fromCurrency
          x.otherPayTxId x.binTxId x.binTxVout x.oHashedSecret with _ | ⟨xb, b⟩
      · simp only [hsec, hg]
      · cases b
        · simp only [hsec, hg]
        · simp only [hsec, hg]
          repeat' split
          all_goals simp
    · simp only [hsec]
      repeat' split
      all_goals simp
  · rfl

/-! ### Claims C5, C6, C7, C8. -/

/-- Claim C5: a trader processes an `xbcTransactionCancel` packet for a
known order only if its signature verifies under the pinned Hub key
`sPubKey`, the counterparty key `oPubKey` or the trader's own key
`mPubKey`; a cancel signed by any other key is dropped leaving the order
(state, reason) and the app state (locked UTXOs included) unchanged. -/
theorem cancelRequiresKnownSigner (env : ClientEnv) (app : AppSt)
    (xtx : TransactionDescr) (p : CancelPacket)
    (hst : app.exch.started = false)
    (h1 : p.sig.verify xtx.sPubKey = false)
    (h2 : p.sig.verify xtx.oPubKey = false)
    (h3 : p.sig.verify xtx.mPubKey = false) :
    processTransactionCancel env app (some xtx) p = dropT app (some xtx) := by
  simp [processTransactionCancel, hst, h1, h2, h3]

/-- Order fixture for the C5 witness: keys pinned, packet signed by a
stranger key. -/
def xtxC5 : TransactionDescr :=
  { blankDescr with sPubKey := [11], oPubKey := [12], mPubKey := [13]
                    state := .trHold }

/-- Cancel packet fixture for the C5 witness. -/
def pktC5 : CancelPacket := ⟨0, .crUserRequest, ⟨[99], true⟩⟩

/-- Witness for C5 at a concrete input. -/
theorem cancelRequiresKnownSigner_witness :
    processTransactionCancel envW appW (some xtxC5) pktC5 =
      dropT appW (some xtxC5) :=
  cancelRequiresKnownSigner envW appW xtxC5 pktC5 rfl (by decide) (by decide)
    (by decide)

/-- Claim C6: cancel is idempotent — a cancel arriving for an order whose
state is already `trCancelled` is dropped without changing the order or
the app state, so applying cancel twice leaves the same terminal state as
applying it once. -/
theorem cancelIdempotent (env : ClientEnv) (app : AppSt)
    (xtx : TransactionDescr) (p q : CancelPacket)
    (hst : app.exch.started = false) :
    (xtx.state = .trCancelled →
      (processTransactionCancel env app (some xtx) p).xtx = some xtx ∧
      (processTransactionCancel env app (some xtx) p).app = app ∧
      (processTransactionCancel env app (some xtx) p).sent = []) ∧
    (∀ x1, (processTransactionCancel env app (some xtx) p).xtx = some x1 →
      x1.state = .trCancelled →
      (processTransactionCancel env
          (processTransactionCancel env app (some xtx) p).app (some x1) q).xtx
        = some x1 ∧
      (processTransactionCancel env
          (processTransactionCancel env app (some xtx) p).app (some x1) q).app
        = (processTransactionCancel env app (some xtx) p).app ∧
      (processTransactionCancel env
          (processTransactionCancel env app (some xtx) p).app (some x1) q).sent
        = []) := by
  constructor
  · intro h
    exact cancel_cancelled_drop env app xtx p hst h
  · intro x1 _ h1
    have hst1 :
        (processTransactionCancel env app (some xtx) p).app.exch.started
          = false := by
      rw [cancel_preserves_exch env app xtx p hst]; exact hst
    exact cancel_cancelled_drop env
      (processTransactionCancel env app (some xtx) p).app x1 q hst1 h1

/-- Order fixture for the C6 witness: an order not yet cancelled that the
first cancel sends to `trCancelled`. -/
def xtxC6 : TransactionDescr :=
  { blankDescr with sPubKey := [11], oPubKey := [12], mPubKey := [13]
                    state := .trHold }

/-- Cancel packet fixture for the C6 witness, signed by the trader. -/
def pktC6 : CancelPacket := ⟨0, .crUserRequest, ⟨[13], true⟩⟩

/-- Witness for C6: at a concrete input the first cancel reaches
`trCancelled` and the second changes nothing. -/
theorem cancelIdempotent_witness :
    (processTransactionCancel envW
        (processTransactionCancel envW appW (some xtxC6) pktC6).app
        (some (cancelledDescr xtxC6 .crUserRequest)) pktC6).xtx
      = some (cancelledDescr xtxC6 .crUserRequest) :=
  ((cancelIdempotent envW appW xtxC6 pktC6 pktC6 rfl).2
    (cancelledDescr xtxC6 .crUserRequest) (by decide) (by decide)).1

/-- Environment fixture for the C7 counterexample: the wallet's `getInfo`
RPC fails while the chain sits at height 0. -/
def envC7 : ClientEnv :=
  { envW with getInfoOk := fun _ => false, chainBlocks := fun _ => 0 }

/-- Order fixture for the C7 counterexample: deposit locked until block
100, refund transaction present, order rolling back. -/
def xtxC7 : TransactionDescr :=
  { blankDescr with state := .trRollback, fromCurrency := "BLOCK"
                    refTx := "rawrefund", lockTime := 100
                    sentDepositFlag := true }

/-- Claim C7 counterexample: the chain's block count (0) is below the
deposit's lockTime (100), yet `redeemOrderDeposit` submits the refund
transaction — the locktime gate is skipped whenever `getInfo` fails. -/
theorem rollbackLocktimeGate_counterexample :
    envC7.chainBlocks xtxC7.fromCurrency < xtxC7.lockTime ∧
    (redeemOrderDeposit envC7 xtxC7).broadcastAttempted = true := by
  constructor
  · decide
  · rfl

/-- Claim C7 (amended): on the cancel rollback path the order is marked
`trRollback` and `redeemOrderDeposit` is driven (packet parked for the
Watchdog while it is not done); provided the wallet's `getInfo` succeeds,
the refund is never broadcast while the reported block count is below the
deposit's lockTime (the call returns retry-later); if a broadcast after
locktime fails the order is marked `trRollbackFailed` and keeps being
retried. -/
theorem rollbackLocktimeGate (env : ClientEnv) (app : AppSt)
    (xtx : TransactionDescr) (p : CancelPacket) :
    (app.exch.started = false →
     p.sig.verify xtx.mPubKey = true →
     env.hasConnector xtx.fromCurrency = true →
     TxState.trCreated.toNat ≤ xtx.state.toNat →
     xtx.state ≠ .trCancelled →
     xtx.sentDepositFlag = true →
     xtx.redeemedCounterparty = false →
     xtx.refTx ≠ "" →
     (processTransactionCancel env app (some xtx) p).xtx =
       some (redeemOrderDeposit env
         { xtx with state := .trRollback, reason := p.reason }).xtx ∧
     ((redeemOrderDeposit env
         { xtx with state := .trRollback, reason := p.reason }).ok = false →
       (processTransactionCancel env app (some xtx) p).app.parked =
         (app.removePackets p.orderId).parked ++ [p.orderId])) ∧
    (env.hasConnector xtx.fromCurrency = true →
     TxState.trCreated.toNat ≤ xtx.state.toNat →
     xtx.refTx ≠ "" →
     env.getInfoOk xtx.fromCurrency = true →
     env.chainBlocks xtx.fromCurrency < xtx.lockTime →
     (redeemOrderDeposit env xtx).broadcastAttempted = false ∧
     (redeemOrderDeposit env xtx).ok = false ∧
     (redeemOrderDeposit env xtx).xtx = xtx) ∧
    (∀ c : Int,
     env.hasConnector xtx.fromCurrency = true →
     TxState.trCreated.toNat ≤ xtx.state.toNat →
     xtx.refTx ≠ "" →
     ¬(env.getInfoOk xtx.fromCurrency = true ∧
        env.chainBlocks xtx.fromCurrency < xtx.lockTime) →
     env.sendRawTransaction xtx.fromCurrency xtx.refTx = .err c →
     (redeemOrderDeposit env xtx).xtx.state = .trRollbackFailed ∧
     (redeemOrderDeposit env xtx).ok = false) := by
  refine ⟨?_, ?_, ?_⟩
  · intro hst hv hc hge hnc hsd hnr href
    unfold processTransactionCancel
    simp only [hst, Bool.false_eq_true, if_false]
    rw [if_neg (by simp [hv]), if_neg (by simp [hc]),
      if_neg (by omega), if_neg hnc, if_neg (by simp [hsd]),
      if_neg (by simp [hnr]), if_neg href]
    constructor
    · split_ifs <;> rfl
    · intro hok
      simp only [hok, Bool.false_eq_true, if_false]
      simp [AppSt.processLater, AppSt.removePackets]
  · intro hc hge href hinfo hblocks
    unfold redeemOrderDeposit
    rw [if_neg (by simp [hc]), if_neg (by omega), if_neg (by simp [href]),
      if_pos ⟨hinfo, hblocks⟩]
    exact ⟨rfl, rfl, rfl⟩
  · intro c hc hge href hgate hsend
    unfold redeemOrderDeposit
    rw [if_neg (by simp [hc]), if_neg (by omega), if_neg (by simp [href]),
      if_neg hgate, hsend]
    exact ⟨rfl, rfl⟩

/-- Environment fixture for the C7 witness: the chain is at height 50,
below the deposit's lockTime. -/
def envLock : ClientEnv := { envW with chainBlocks := fun _ => 50 }

/-- Order fixture for the C7 witness: deposit sent, refund present,
locktime 100 not yet reached. -/
def xtxLock : TransactionDescr :=
  { blankDescr with state := .trCreated, fromCurrency := "BLOCK"
                    refTx := "rawrefund", lockTime := 100
                    sentDepositFlag := true, mPubKey := [13]
                    sPubKey := [11] }

/-- Cancel packet fixture for the C7 witness, signed by the trader. -/
def pktLock : CancelPacket := ⟨0, .crUserRequest, ⟨[13], true⟩⟩

/-- Witness for the amended C7 at concrete inputs: a cancel on a deposited
order parks the packet while the locktime has not expired, and the
locktime gate returns retry-later without broadcasting. -/
theorem rollbackLocktimeGate_witness :
    ((processTransactionCancel envLock appW (some xtxLock) pktLock).xtx =
       some (redeemOrderDeposit envLock
         { xtxLock with state := .trRollback, reason := pktLock.reason }).xtx) ∧
    (redeemOrderDeposit envLock xtxLock).broadcastAttempted = false ∧
    (redeemOrderDeposit envLock xtxLock).ok = false := by
  refine ⟨?_, ?_, ?_⟩
  · exact ((rollbackLocktimeGate envLock appW xtxLock pktLock).1 rfl
      (by decide) rfl (by decide) (by decide) rfl rfl (by decide)).1
  · exact ((rollbackLocktimeGate envLock appW xtxLock pktLock).2.1 rfl
      (by decide) (by decide) rfl (by decide)).1
  · exact ((rollbackLocktimeGate envLock appW xtxLock pktLock).2.1 rfl
      (by decide) (by decide) rfl (by decide)).2.1

/-- Environment fixture for the C8 counterexample and witnesses: every
broadcast is answered with `RPC_VERIFY_ALREADY_IN_CHAIN` and the chain is
past every locktime. -/
def envC8 : ClientEnv :=
  { envW with
    sendRawTransaction := fun _ _ => .err RPC_VERIFY_ALREADY_IN_CHAIN }

/-- Order fixture for the C8 counterexample: rollback in progress, refund
known, locktime expired. -/
def xtxC8 : TransactionDescr :=
  { blankDescr with state := .trRollback, fromCurrency := "BLOCK"
                    toCurrency := "LTC", refTx := "rawrefund"
                    lockTime := 100, sentDepositFlag := true
                    secret := some [7] }

/-- Claim C8 counterexample: resubmitting an already-broadcast refund
(`sendRawTransaction` returns `RPC_VERIFY_ALREADY_IN_CHAIN`) is NOT treated
as success by the rollback path — the order ends in `trRollbackFailed`, not
`trRollback`, because `redeemOrderDeposit` inspects no error code (its
`errCode` local shadows the out-parameter). -/
theorem alreadyInChain_counterexample :
    envC8.sendRawTransaction xtxC8.fromCurrency xtxC8.refTx
        = .err RPC_VERIFY_ALREADY_IN_CHAIN ∧
    (redeemOrderDeposit envC8 xtxC8).xtx.state = .trRollbackFailed ∧
    (redeemOrderDeposit envC8 xtxC8).ok = false := by
  exact ⟨rfl, rfl, rfl⟩

/-- Claim C8 (amended): `RPC_VERIFY_ALREADY_IN_CHAIN` is treated as success
only by the counterparty-redeem path (`redeemOrderCounterpartyDeposit`
returns success and marks the counterparty deposit redeemed); the refund
rollback path (`redeemOrderDeposit`) treats it like any other broadcast
failure and marks the order `trRollbackFailed`. -/
theorem alreadyInChainHandling (env : ClientEnv) (app : AppSt)
    (xtx : TransactionDescr) :
    (∀ s pid ptx,
     env.hasConnector xtx.fromCurrency = true →
     env.hasConnector xtx.toCurrency = true →
     xtx.secret = some s →
     env.createPaymentTransaction xtx.toCurrency
         [⟨xtx.oBinTxId, xtx.oBinTxVout, (xtx.toAmount : ℚ) / COIN⟩]
         [(env.fromXAddr xtx.toCurrency xtx.toAddr,
           (xtx.toAmount : ℚ) / COIN + xtx.oOverpayment)]
         (xtx.secret.getD []) xtx.unlockScript = some (pid, ptx) →
     env.sendRawTransaction xtx.toCurrency ptx
         = .err RPC_VERIFY_ALREADY_IN_CHAIN →
     (redeemOrderCounterpartyDeposit env app xtx).ok = true ∧
     (redeemOrderCounterpartyDeposit env app xtx).xtx.redeemedCounterparty
       = true) ∧
    (env.hasConnector xtx.fromCurrency = true →
     TxState.trCreated.toNat ≤ xtx.state.toNat →
     xtx.refTx ≠ "" →
     ¬(env.getInfoOk xtx.fromCurrency = true ∧
        env.chainBlocks xtx.fromCurrency < xtx.lockTime) →
     env.sendRawTransaction xtx.fromCurrency xtx.refTx
         = .err RPC_VERIFY_ALREADY_IN_CHAIN →
     (redeemOrderDeposit env xtx).xtx.state = .trRollbackFailed ∧
     (redeemOrderDeposit env xtx).ok = false) := by
  constructor
  · intro s pid ptx hcf hct hs hpay hsend
    unfold redeemOrderCounterpartyDeposit
    rw [if_neg (by simp [hcf, hct])]
    simp only [hs, Option.getD_some] at hpay
    simp only [hs, Option.getD_some, hpay, hsend]
    simp
  · intro hc hge href hgate hsend
    unfold redeemOrderDeposit
    rw [if_neg (by simp [hc]), if_neg (by omega), if_neg (by simp [href]),
      if_neg hgate, hsend]
    exact ⟨rfl, rfl⟩

/-- Witness for the amended C8 at a concrete input: the counterparty
redeem treats the already-in-chain error as success. -/
theorem alreadyInChainHandling_witness :
    (redeemOrderCounterpartyDeposit envC8 appW xtxC8).ok = true ∧
    (redeemOrderCounterpartyDeposit envC8 appW xtxC8).xtx.redeemedCounterparty
      = true :=
  (alreadyInChainHandling envC8 appW xtxC8).1 [7] "ptxid" "ptx" rfl rfl rfl
    (by decide) rfl

/-! ### Claim C1: state guards and monotonicity, handler by handler. -/

lemma hold_guard (env : ClientEnv) (app : AppSt) (xtx : TransactionDescr)
    (p : HoldPacket) (h : TxState.trHold.toNat ≤ xtx.state.toNat) :
    (processTransactionHold env app (some xtx) p).xtx = some xtx ∧
    (processTransactionHold env app (some xtx) p).sent = [] := by
  unfold processTransactionHold
  rcases htr : app.exch.transaction p.orderId with _ | tr <;>
    simp only [htr] <;> split_ifs <;>
    first
      | exact ⟨rfl, rfl⟩
      | omega

lemma init_guard (env : ClientEnv) (app : AppSt) (xtx : TransactionDescr)
    (p : InitPacket) (h : TxState.trInitialized.toNat ≤ xtx.state.toNat) :
    (processTransactionInit env app (some xtx) p).xtx = some xtx ∧
    (processTransactionInit env app (some xtx) p).sent = [] := by
  unfold processTransactionInit
  dsimp only
  split_ifs <;>
    first
      | exact ⟨rfl, rfl⟩
      | omega
      | (rcases hs : env.storeDataIntoBlockchain xtx.rawFeeTx with _ | f <;>
          simp only [hs] <;> split_ifs <;> omega)

lemma createA_guard (env : ClientEnv) (app : AppSt) (xtx : TransactionDescr)
    (p : CreateAPacket) (h : TxState.trCreated.toNat ≤ xtx.state.toNat) :
    (processTransactionCreateA env app (some xtx) p).xtx = some xtx ∧
    (processTransactionCreateA env app (some xtx) p).sent = [] := by
  unfold processTransactionCreateA
  dsimp only
  split_ifs <;>
    first
      | exact ⟨rfl, rfl⟩
      | omega

lemma createB_guard (env : ClientEnv) (app : AppSt) (xtx : TransactionDescr)
    (p : CreateBPacket) (h : TxState.trCreated.toNat ≤ xtx.state.toNat) :
    (processTransactionCreateB env app (some xtx) p).xtx = some xtx ∧
    (processTransactionCreateB env app (some xtx) p).sent = [] := by
  unfold processTransactionCreateB
  dsimp only
  split_ifs <;>
    first
      | exact ⟨rfl, rfl⟩
      | omega

lemma confirmA_guard (env : ClientEnv) (app : AppSt) (xtx : TransactionDescr)
    (p : ConfirmAPacket) (h : TxState.trCommited.toNat ≤ xtx.state.toNat) :
    (processTransactionConfirmA env app (some xtx) p).xtx = some xtx ∧
    (processTransactionConfirmA env app (some xtx) p).sent = [] := by
  unfold processTransactionConfirmA
  dsimp only
  split_ifs <;>
    first
      | exact ⟨rfl, rfl⟩
      | omega

lemma confirmB_guard (env : ClientEnv) (app : AppSt) (xtx : TransactionDescr)
    (p : ConfirmBPacket) (h : TxState.trCommited.toNat ≤ xtx.state.toNat) :
    (processTransactionConfirmB env app (some xtx) p).xtx = some xtx ∧
    (processTransactionConfirmB env app (some xtx) p).sent = [] := by
  unfold processTransactionConfirmB
  dsimp only
  split_ifs <;>
    first
      | exact ⟨rfl, rfl⟩
      | omega

lemma hold_mono (env : ClientEnv) (app : AppSt) (xtx : TransactionDescr)
    (p : HoldPacket) :
    ∀ x1, (processTransactionHold env app (some xtx) p).xtx = some x1 →
      xtx.state.toNat ≤ x1.state.toNat := by
  intro x1 hx
  unfold processTransactionHold at hx
  rcases htr : app.exch.transaction p.orderId with _ | tr <;>
    simp only [htr] at hx <;> split_ifs at hx <;>
    simp only [dropT, failT, Option.some.injEq] at hx <;>
    cases hx <;> simp_all <;> omega

lemma init_mono (env : ClientEnv) (app : AppSt) (xtx : TransactionDescr)
    (p : InitPacket) :
    ∀ x1, (processTransactionInit env app (some xtx) p).xtx = some x1 →
      xtx.state.toNat ≤ x1.state.toNat := by
  intro x1 hx
  unfold processTransactionInit at hx
  dsimp only at hx
  rcases hs : env.storeDataIntoBlockchain xtx.rawFeeTx with _ | f <;>
    simp only [hs] at hx <;>
    repeat' split at hx
  all_goals
    first
      | (simp only [dropT, failT, Option.some.injEq] at hx; cases hx;
          first | omega | (simp_all; try omega))
      | (simp only [cancelPath, sendCancelTransactionDescr] at hx
         have hm := cancel_state_mono env app _ _
           (by first | omega | (simp_all; try omega)) x1 hx
         (try simp at hm); omega)

lemma createATail_mono (env : ClientEnv) (app : AppSt) (x3 : TransactionDescr)
    (oa f1 f2 ia : ℚ) (used : List UtxoEntry) (oid : Nat)
    (h : x3.state.toNat ≤ 5) :
    ∀ x1, (createATail env app x3 oa f1 f2 ia used oid).xtx = some x1 →
      x3.state.toNat ≤ x1.state.toNat := by
  intro x1 hx
  unfold createATail at hx
  dsimp only at hx
  repeat' split at hx
  all_goals
    first
      | (simp only [dropT, failT, Option.some.injEq] at hx; cases hx;
          first | omega | (simp_all; try omega))
      | (simp only [cancelPath, sendCancelTransactionDescr] at hx
         have hm := cancel_state_mono env app _ _
           (by first | omega | (simp_all; try omega)) x1 hx
         (try simp at hm); omega)

lemma createBTail_mono (env : ClientEnv) (app : AppSt) (x3 : TransactionDescr)
    (oa f1 f2 ia : ℚ) (used : List UtxoEntry) (oid : Nat)
    (h : x3.state.toNat ≤ 5) :
    ∀ x1, (createBTail env app x3 oa f1 f2 ia used oid).xtx = some x1 →
      x3.state.toNat ≤ x1.state.toNat := by
  intro x1 hx
  unfold createBTail at hx
  dsimp only at hx
  repeat' split at hx
  all_goals
    first
      | (simp only [dropT, failT, Option.some.injEq] at hx; cases hx;
          first | omega | (simp_all; try omega))
      | (simp only [cancelPath, sendCancelTransactionDescr] at hx
         have hm := cancel_state_mono env app _ _
           (by first | omega | (simp_all; try omega)) x1 hx
         (try simp at hm); omega)

lemma createA_mono (env : ClientEnv) (app : AppSt) (xtx : TransactionDescr)
    (p : CreateAPacket) :
    ∀ x1, (processTransactionCreateA env app (some xtx) p).xtx = some x1 →
      xtx.state.toNat ≤ x1.state.toNat := by
  intro x1 hx
  unfold processTransactionCreateA at hx
  dsimp only at hx
  repeat' split at hx
  all_goals
    first
      | (simp only [dropT, failT, Option.some.injEq] at hx; cases hx;
          first | omega | (simp_all; try omega))
      | (simp only [cancelPath, sendCancelTransactionDescr] at hx
         have hm := cancel_state_mono env app _ _
           (by first | omega | (simp_all; try omega)) x1 hx
         (try simp at hm); omega)
      | (have hm := createATail_mono env app _ _ _ _ _ _ _
           (by first | omega | (simp_all; try omega)) x1 hx
         (try simp at hm); omega)

lemma createBDeposit_mono (env : ClientEnv) (app : AppSt)
    (x1 : TransactionDescr) (cps : Bytes) (cpp : String) (v : Nat) (ov : ℚ)
    (cpk : Bytes) (batx : String) (oid : Nat) (h : x1.state.toNat ≤ 5) :
    ∀ xr, (createBDeposit env app x1 cps cpp v ov cpk batx oid).xtx = some xr →
      x1.state.toNat ≤ xr.state.toNat := by
  intro xr hx
  unfold createBDeposit at hx
  dsimp only at hx
  repeat' split at hx
  all_goals
    first
      | (simp only [cancelPath, sendCancelTransactionDescr] at hx
         have hm := cancel_state_mono env app _ _
           (by first | omega | (simp_all; try omega)) xr hx
         (try simp at hm); omega)
      | (have hm := createBTail_mono env app _ _ _ _ _ _ _
           (by first | omega | (simp_all; try omega)) xr hx
         (try simp at hm); omega)

lemma createBCheck_mono (env : ClientEnv) (app : AppSt)
    (x1 : TransactionDescr) (batx : String) (cpk : Bytes) (oid : Nat)
    (h : x1.state.toNat ≤ 5) :
    ∀ xr, (createBCheck env app x1 batx cpk oid).xtx = some xr →
      x1.state.toNat ≤ xr.state.toNat := by
  intro xr hx
  unfold createBCheck at hx
  dsimp only at hx
  repeat' split at hx
  all_goals
    first
      | (simp only [dropT, failT, Option.some.injEq] at hx; cases hx;
          first | omega | (simp_all; try omega))
      | (simp only [cancelPath, sendCancelTransactionDescr] at hx
         have hm := cancel_state_mono env app _ _
           (by first | omega | (simp_all; try omega)) xr hx
         (try simp at hm); omega)
      | (have hm := createBDeposit_mono env app _ _ _ _ _ _ _ _
           (by first | omega | (simp_all; try omega)) xr hx
         (try simp at hm); omega)

lemma createB_mono (env : ClientEnv) (app : AppSt) (xtx : TransactionDescr)
    (p : CreateBPacket) :
    ∀ x1, (processTransactionCreateB env app (some xtx) p).xtx = some x1 →
      xtx.state.toNat ≤ x1.state.toNat := by
  intro x1 hx
  unfold processTransactionCreateB at hx
  dsimp only at hx
  repeat' split at hx
  all_goals
    first
      | (simp only [dropT, failT, Option.some.injEq] at hx; cases hx;
          first | omega | (simp_all; try omega))
      | (simp only [cancelPath, sendCancelTransactionDescr] at hx
         have hm := cancel_state_mono env app _ _
           (by first | omega | (simp_all; try omega)) x1 hx
         (try simp at hm); omega)
      | (have hm := createBCheck_mono env app _ _ _ _
           (by first | omega | (simp_all; try omega)) x1 hx
         (try simp at hm); omega)

lemma confirmATail_mono (env : ClientEnv) (app : AppSt)
    (x2 : TransactionDescr) (oid : Nat) (h : x2.state.toNat ≤ 5) :
    ∀ xr, (confirmATail env app x2 oid).xtx = some xr →
      x2.state.toNat ≤ xr.state.toNat := by
  intro xr hx
  unfold confirmATail at hx
  dsimp only at hx
  split_ifs at hx
  all_goals
    first
      | (simp only [Option.some.injEq] at hx; cases hx;
          (try simp only [redeemCp_state]);
          first | omega | (simp_all; try omega))
      | (simp only [cancelPath, sendCancelTransactionDescr] at hx
         have hm := cancel_state_mono env _ _ _
           (by rw [redeemCp_state]; omega) xr hx
         rw [redeemCp_state] at hm; omega)

lemma confirmACheck_mono (env : ClientEnv) (app : AppSt)
    (x1 : TransactionDescr) (btx : String) (oid : Nat)
    (h : x1.state.toNat ≤ 5) :
    ∀ xr, (confirmACheck env app x1 btx oid).xtx = some xr →
      x1.state.toNat ≤ xr.state.toNat := by
  intro xr hx
  unfold confirmACheck at hx
  dsimp only at hx
  repeat' split at hx
  all_goals
    first
      | (simp only [dropT, failT, Option.some.injEq] at hx; cases hx;
          first | omega | (simp_all; try omega))
      | (simp only [cancelPath, sendCancelTransactionDescr] at hx
         have hm := cancel_state_mono env app _ _
           (by first | omega | (simp_all; try omega)) xr hx
         (try simp at hm); omega)
      | (have hm := confirmATail_mono env app _ _
           (by first | omega | (simp_all; try omega)) xr hx
         (try simp at hm); omega)

lemma confirmA_mono (env : ClientEnv) (app : AppSt) (xtx : TransactionDescr)
    (p : ConfirmAPacket) :
    ∀ x1, (processTransactionConfirmA env app (some xtx) p).xtx = some x1 →
      xtx.state.toNat ≤ x1.state.toNat := by
  intro x1 hx
  unfold processTransactionConfirmA at hx
  dsimp only at hx
  repeat' split at hx
  all_goals
    first
      | (simp only [dropT, failT, Option.some.injEq] at hx; cases hx;
          first | omega | (simp_all; try omega))
      | (simp only [cancelPath, sendCancelTransactionDescr] at hx
         have hm := cancel_state_mono env app _ _
           (by first | omega | (simp_all; try omega)) x1 hx
         (try simp at hm); omega)
      | (have hm := confirmACheck_mono env app _ _ _
           (by first | omega | (simp_all; try omega)) x1 hx
         (try simp at hm); omega)

lemma confirmB_mono (env : ClientEnv) (app : AppSt) (xtx : TransactionDescr)
    (p : ConfirmBPacket) :
    ∀ x1, (processTransactionConfirmB env app (some xtx) p).xtx = some x1 →
      xtx.state.toNat ≤ x1.state.toNat := by
  intro x1 hx
  unfold processTransactionConfirmB at hx
  dsimp only at hx
  repeat' split at hx
  all_goals
    first
      | (simp only [dropT, failT, Option.some.injEq] at hx; cases hx;
          (try simp only [redeemCp_state]);
          first | omega | (simp_all; try omega))

/-- Claim C1: for every trader-side handler (`TransactionHold`,
`TransactionInit`, `TransactionCreateA`, `TransactionCreateB`,
`TransactionConfirmA`, `TransactionConfirmB`) and every locally known
order, a packet arriving when the order's state is already at or past the
state the handler would set is dropped with the order unchanged and no
reply sent; and none of these handlers ever regresses the order's state. -/
theorem stateGuardsMonotone :
    (∀ env app xtx p, TxState.trHold.toNat ≤ xtx.state.toNat →
      (processTransactionHold env app (some xtx) p).xtx = some xtx ∧
      (processTransactionHold env app (some xtx) p).sent = []) ∧
    (∀ env app xtx p, TxState.trInitialized.toNat ≤ xtx.state.toNat →
      (processTransactionInit env app (some xtx) p).xtx = some xtx ∧
      (processTransactionInit env app (some xtx) p).sent = []) ∧
    (∀ env app xtx p, TxState.trCreated.toNat ≤ xtx.state.toNat →
      (processTransactionCreateA env app (some xtx) p).xtx = some xtx ∧
      (processTransactionCreateA env app (some xtx) p).sent = []) ∧
    (∀ env app xtx p, TxState.trCreated.toNat ≤ xtx.state.toNat →
      (processTransactionCreateB env app (some xtx) p).xtx = some xtx ∧
      (processTransactionCreateB env app (some xtx) p).sent = []) ∧
    (∀ env app xtx p, TxState.trCommited.toNat ≤ xtx.state.toNat →
      (processTransactionConfirmA env app (some xtx) p).xtx = some xtx ∧
      (processTransactionConfirmA env app (some xtx) p).sent = []) ∧
    (∀ env app xtx p, TxState.trCommited.toNat ≤ xtx.state.toNat →
      (processTransactionConfirmB env app (some xtx) p).xtx = some xtx ∧
      (processTransactionConfirmB env app (some xtx) p).sent = []) ∧
    (∀ env app xtx p x1,
      (processTransactionHold env app (some xtx) p).xtx = some x1 →
      xtx.state.toNat ≤ x1.state.toNat) ∧
    (∀ env app xtx p x1,
      (processTransactionInit env app (some xtx) p).xtx = some x1 →
      xtx.state.toNat ≤ x1.state.toNat) ∧
    (∀ env app xtx p x1,
      (processTransactionCreateA env app (some xtx) p).xtx = some x1 →
      xtx.state.toNat ≤ x1.state.toNat) ∧
    (∀ env app xtx p x1,
      (processTransactionCreateB env app (some xtx) p).xtx = some x1 →
      xtx.state.toNat ≤ x1.state.toNat) ∧
    (∀ env app xtx p x1,
      (processTransactionConfirmA env app (some xtx) p).xtx = some x1 →
      xtx.state.toNat ≤ x1.state.toNat) ∧
    (∀ env app xtx p x1,
      (processTransactionConfirmB env app (some xtx) p).xtx = some x1 →
      xtx.state.toNat ≤ x1.state.toNat) :=
  ⟨fun env app xtx p h => hold_guard env app xtx p h,
   fun env app xtx p h => init_guard env app xtx p h,
   fun env app xtx p h => createA_guard env app xtx p h,
   fun env app xtx p h => createB_guard env app xtx p h,
   fun env app xtx p h => confirmA_guard env app xtx p h,
   fun env app xtx p h => confirmB_guard env app xtx p h,
   fun env app xtx p x1 h => hold_mono env app xtx p x1 h,
   fun env app xtx p x1 h => init_mono env app xtx p x1 h,
   fun env app xtx p x1 h => createA_mono env app xtx p x1 h,
   fun env app xtx p x1 h => createB_mono env app xtx p x1 h,
   fun env app xtx p x1 h => confirmA_mono env app xtx p x1 h,
   fun env app xtx p x1 h => confirmB_mono env app xtx p x1 h⟩

/-- Order fixture for the C1 witness: a local order already at `trHold`. -/
def xtxC1 : TransactionDescr :=
  { blankDescr with sPubKey := [11], oPubKey := [12], mPubKey := [13]
                    state := .trHold, isLocal := true }

/-- Hold packet fixture for the C1 witness, correctly signed by the Hub. -/
def pktC1 : HoldPacket := ⟨[1], 0, ⟨[11], true⟩⟩

/-- Witness for C1 at a concrete input: a `TransactionHold` arriving while
the order is already at `trHold` is dropped, and its processing does not
regress the state. -/
theorem stateGuardsMonotone_witness :
    ((processTransactionHold envW appW (some xtxC1) pktC1).xtx = some xtxC1 ∧
     (processTransactionHold envW appW (some xtxC1) pktC1).sent = []) ∧
    xtxC1.state.toNat ≤ xtxC1.state.toNat := by
  constructor
  · exact stateGuardsMonotone.1 envW appW xtxC1 pktC1 (by decide)
  · exact stateGuardsMonotone.2.2.2.2.2.2.1 envW appW xtxC1 pktC1 xtxC1
      (stateGuardsMonotone.1 envW appW xtxC1 pktC1 (by decide)).1

/-! ### Claim C4: the pinned servicenode key. -/

lemma hold_badsig (env : ClientEnv) (app : AppSt) (xtx : TransactionDescr)
    (p : HoldPacket) (hv : p.sig.verify xtx.sPubKey = false) :
    processTransactionHold env app (some xtx) p = dropT app (some xtx) := by
  unfold processTransactionHold
  simp [hv]

lemma init_badsig (env : ClientEnv) (app : AppSt) (xtx : TransactionDescr)
    (p : InitPacket) (hv : p.sig.verify xtx.sPubKey = false) :
    processTransactionInit env app (some xtx) p = dropT app (some xtx) := by
  unfold processTransactionInit
  dsimp only
  split_ifs <;> simp_all

lemma createA_badsig (env : ClientEnv) (app : AppSt) (xtx : TransactionDescr)
    (p : CreateAPacket) (hv : p.sig.verify xtx.sPubKey = false) :
    processTransactionCreateA env app (some xtx) p = dropT app (some xtx) := by
  unfold processTransactionCreateA
  dsimp only
  split_ifs <;> simp_all

lemma createB_badsig (env : ClientEnv) (app : AppSt) (xtx : TransactionDescr)
    (p : CreateBPacket) (hv : p.sig.verify xtx.sPubKey = false) :
    processTransactionCreateB env app (some xtx) p = dropT app (some xtx) := by
  unfold processTransactionCreateB
  dsimp only
  split_ifs <;> simp_all

lemma confirmA_badsig (env : ClientEnv) (app : AppSt) (xtx : TransactionDescr)
    (p : ConfirmAPacket) (hv : p.sig.verify xtx.sPubKey = false) :
    processTransactionConfirmA env app (some xtx) p = dropT app (some xtx) := by
  unfold processTransactionConfirmA
  dsimp only
  split_ifs <;> simp_all

lemma confirmB_badsig (env : ClientEnv) (app : AppSt) (xtx : TransactionDescr)
    (p : ConfirmBPacket) (hv : p.sig.verify xtx.sPubKey = false) :
    processTransactionConfirmB env app (some xtx) p = dropT app (some xtx) := by
  unfold processTransactionConfirmB
  dsimp only
  split_ifs <;> simp_all

lemma finished_badsig (env : ClientEnv) (app : AppSt) (xtx : TransactionDescr)
    (p : FinishedPacket) (hv : p.sig.verify xtx.sPubKey = false) :
    processTransactionFinished env app (some xtx) p = dropT app (some xtx) := by
  unfold processTransactionFinished
  simp [hv]

/-- Claim C4: the Hub public key is pinned into `sPubKey` when the trader
first creates the local order from `PendingTransaction`, and every later
Hub-originated packet about that order — `PendingTransaction` refreshes,
`TransactionHold`, `TransactionInit`, `TransactionCreateA`,
`TransactionCreateB`, `TransactionConfirmA`, `TransactionConfirmB` and
`TransactionFinished` — whose signature does not verify under the pinned
key is dropped with the order and app state unchanged. -/
theorem hubKeyPinned :
    (∀ env app p, (app : AppSt).exch.enabled = false →
      (p : PendingPacket).sig.sigOk = true →
      (env : ClientEnv).hasConnector p.scurrency = true →
      env.hasConnector p.dcurrency = true →
      ∃ d, (processPendingTransaction env app none p).xtx = some d ∧
        d.sPubKey = p.sig.pubkey ∧ d.state = .trPending) ∧
    (∀ env app xtx p, (p : PendingPacket).sig.verify
        (xtx : TransactionDescr).sPubKey = false →
      processPendingTransaction env app (some xtx) p = dropT app (some xtx)) ∧
    (∀ env app xtx p, (p : HoldPacket).sig.verify xtx.sPubKey = false →
      processTransactionHold env app (some xtx) p = dropT app (some xtx)) ∧
    (∀ env app xtx p, (p : InitPacket).sig.verify xtx.sPubKey = false →
      processTransactionInit env app (some xtx) p = dropT app (some xtx)) ∧
    (∀ env app xtx p, (p : CreateAPacket).sig.verify xtx.sPubKey = false →
      processTransactionCreateA env app (some xtx) p = dropT app (some xtx)) ∧
    (∀ env app xtx p, (p : CreateBPacket).sig.verify xtx.sPubKey = false →
      processTransactionCreateB env app (some xtx) p = dropT app (some xtx)) ∧
    (∀ env app xtx p, (p : ConfirmAPacket).sig.verify xtx.sPubKey = false →
      processTransactionConfirmA env app (some xtx) p = dropT app (some xtx)) ∧
    (∀ env app xtx p, (p : ConfirmBPacket).sig.verify xtx.sPubKey = false →
      processTransactionConfirmB env app (some xtx) p = dropT app (some xtx)) ∧
    (∀ env app xtx p, (p : FinishedPacket).sig.verify xtx.sPubKey = false →
      processTransactionFinished env app (some xtx) p
        = dropT app (some xtx)) := by
  refine ⟨?_, ?_, hold_badsig, init_badsig, createA_badsig, createB_badsig,
    confirmA_badsig, confirmB_badsig, finished_badsig⟩
  · intro env app p hen hsig hc1 hc2
    unfold processPendingTransaction
    simp [hen, hsig, hc1, hc2]
  · intro env app xtx p hv
    unfold processPendingTransaction
    split_ifs <;> simp_all

/-- Pending packet fixture for the C4 witness. -/
def pktC4 : PendingPacket :=
  ⟨77, "BLOCK", 1000, "LTC", 2000, [5], 12, 34, ⟨[11], true⟩⟩

/-- Hold packet fixture for the C4 witness, signed by a stranger key. -/
def pktC4bad : HoldPacket := ⟨[1], 77, ⟨[99], true⟩⟩

/-- Order fixture for the C4 witness, with `sPubKey` pinned to `[11]`. -/
def xtxC4 : TransactionDescr :=
  { blankDescr with id := 77, sPubKey := [11], state := .trPending
                    isLocal := true }

/-- Witness for C4 at a concrete input: the order created from a
`PendingTransaction` pins the packet's servicenode key, and a later
`TransactionHold` signed by a different key is dropped. -/
theorem hubKeyPinned_witness :
    (∃ d, (processPendingTransaction envW appW none pktC4).xtx = some d ∧
      d.sPubKey = pktC4.sig.pubkey ∧ d.state = .trPending) ∧
    processTransactionHold envW appW (some xtxC4) pktC4bad
      = dropT appW (some xtxC4) := by
  constructor
  · exact hubKeyPinned.1 envW appW pktC4 rfl rfl rfl rfl
  · exact hubKeyPinned.2.2.1 envW appW xtxC4 pktC4bad (by decide)



/-- C10: in `processTransactionInit` the consistency check between the
packet's order fields and the local order rejects the packet only when all
seven fields (id, from, fromCurrency, fromAmount, to, toCurrency, toAmount)
simultaneously differ; in particular a packet whose id matches the local
order but whose amounts and currencies differ is processed, acknowledged
with `TransactionInitialized`, and advances the order to `trInitialized`. -/
theorem initMismatchCheckAllSeven :
    (∀ env app (xtx : TransactionDescr) (p : InitPacket),
      xtx.isLocal = true →
      p.sig.verify xtx.sPubKey = true →
      xtx.state.toNat < TxState.trInitialized.toNat →
      xtx.role = 'A' →
      (processTransactionInit env app (some xtx) p = dropT app (some xtx) ↔
        (xtx.id ≠ p.orderId ∧ xtx.fromAddr ≠ p.fromAddr ∧
         xtx.fromCurrency ≠ p.fromCurrency ∧ xtx.fromAmount ≠ p.fromAmount ∧
         xtx.toAddr ≠ p.toAddr ∧ xtx.toCurrency ≠ p.toCurrency ∧
         xtx.toAmount ≠ p.toAmount))) ∧
    (∀ env app (xtx : TransactionDescr) (p : InitPacket),
      xtx.isLocal = true →
      p.sig.verify xtx.sPubKey = true →
      xtx.state.toNat < TxState.trInitialized.toNat →
      xtx.role = 'A' →
      xtx.id = p.orderId →
      processTransactionInit env app (some xtx) p =
        ⟨some { xtx with state := .trInitialized }, app, true,
         [⟨.xbcTransactionInitialized, p.orderId⟩], none⟩) := by
  constructor
  · intro env app xtx p hl hv hs hr
    unfold processTransactionInit
    dsimp only
    rw [if_neg (by simp [hl]), if_neg (by simp [hv]), if_neg (by omega)]
    constructor
    · intro hres
      by_contra hmis
      rw [if_neg hmis, if_neg (by simp [hr])] at hres
      have := congrArg TraderOut.sent hres
      simp [dropT] at this
    · intro hmis
      rw [if_pos hmis]
  · intro env app xtx p hl hv hs hr hid
    unfold processTransactionInit
    dsimp only
    rw [if_neg (by simp [hl]), if_neg (by simp [hv]), if_neg (by omega),
      if_neg (fun h => h.1 hid), if_neg (by simp [hr])]


/-- Order fixture for the C10 witness: a local Maker order at `trHold`. -/
def xtxC10 : TransactionDescr :=
  { blankDescr with id := 77, sPubKey := [21], role := 'A', state := .trHold,
                    isLocal := true, fromCurrency := "BLOCK", fromAmount := 1000,
                    toCurrency := "LTC", toAmount := 2000 }

/-- Init packet fixture for the C10 witness: the order id matches the local
order but every amount and currency differs from it. -/
def pktC10 : InitPacket :=
  ⟨[1], [2], 77, [3], "BTC", 555, [4], "SYS", 666, ⟨[21], true⟩⟩

/-- Witness for C10 at a concrete input: an Init packet whose id matches the
local order but whose amounts and currencies all differ is nevertheless
processed, acknowledged with `TransactionInitialized`, and the order
advances to `trInitialized`. -/
theorem initMismatchCheckAllSeven_witness :
    processTransactionInit envW appW (some xtxC10) pktC10 =
      ⟨some { xtxC10 with state := .trInitialized }, appW, true,
       [⟨.xbcTransactionInitialized, 77⟩], none⟩ :=
  initMismatchCheckAllSeven.2 envW appW xtxC10 pktC10 rfl (by decide) (by decide) rfl rfl



/-- `processTransactionCancel` never calls the deposit builder. -/
lemma cancel_depositCall_aux (env : ClientEnv) (app : AppSt)
    (o : Option TransactionDescr) (p : CancelPacket)
    (d : Option (List XTxIn × List (String × ℚ)))
    (hx : (processTransactionCancel env app o p).depositCall = d) :
    d = none := by
  unfold processTransactionCancel at hx
  by_cases hst : app.exch.started = true
  · rw [if_pos hst] at hx
    rcases hmatch : (app.exch.pendingTransaction p.orderId).orElse
        (fun _ => app.exch.transaction p.orderId) with _ | tr <;>
      simp only [hmatch] at hx
    · exact hx.symm
    · split_ifs at hx <;> exact hx.symm
  · rw [if_neg hst] at hx
    rcases o with _ | xtx
    · exact hx.symm
    · dsimp only at hx
      split_ifs at hx <;> exact hx.symm

/-- Neither does the local-cancel send path of the trader handlers. -/
lemma cancelPath_depositCall (env : ClientEnv) (app : AppSt)
    (xtx : TransactionDescr) (r : TxCancelReason) :
    (cancelPath env app xtx r).depositCall = none := by
  dsimp only [cancelPath, sendCancelTransactionDescr]
  exact cancel_depositCall_aux env app _ _ _ rfl

/-- Every outcome of `createATail` records the deposit-builder call on the
selected inputs and the `depositOutputs` output list. -/
lemma createATail_depositCall (env : ClientEnv) (app : AppSt)
    (x3 : TransactionDescr) (oa f1 f2 ia : ℚ) (used : List UtxoEntry)
    (oid : Nat) (d : Option (List XTxIn × List (String × ℚ)))
    (hx : (createATail env app x3 oa f1 f2 ia used oid).depositCall = d) :
    d = some (used.map (fun e => XTxIn.mk e.txId e.vout e.amount),
      depositOutputs x3.lockP2SHAddress (largestUtxo used).address
        oa f1 f2 ia) := by
  unfold createATail at hx
  dsimp only at hx
  repeat' split at hx
  all_goals exact hx.symm

/-- Every outcome of `createBTail` records the deposit-builder call on the
selected inputs and the `depositOutputs` output list. -/
lemma createBTail_depositCall (env : ClientEnv) (app : AppSt)
    (x3 : TransactionDescr) (oa f1 f2 ia : ℚ) (used : List UtxoEntry)
    (oid : Nat) (d : Option (List XTxIn × List (String × ℚ)))
    (hx : (createBTail env app x3 oa f1 f2 ia used oid).depositCall = d) :
    d = some (used.map (fun e => XTxIn.mk e.txId e.vout e.amount),
      depositOutputs x3.lockP2SHAddress (largestUtxo used).address
        oa f1 f2 ia) := by
  unfold createBTail at hx
  dsimp only at hx
  repeat' split at hx
  all_goals exact hx.symm

/-- The coin selection both deposit builders perform on an order: target
`fromAmount / COIN` plus the two fees, over the order's reserved coins. -/
def depositSelection (env : ClientEnv) (xtx : TransactionDescr) :
    List UtxoEntry × ℚ × ℚ :=
  selectCoins (fun c => env.minTxFee1 xtx.fromCurrency c 3)
    ((xtx.fromAmount : ℚ) / COIN) (env.minTxFee2 xtx.fromCurrency 1 1)
    xtx.usedCoins

/-- C9: in both deposit-building handlers (`CreateA` for the Maker,
`CreateB` for the Taker) every deposit-builder call passes an output list
of shape `depositOutputs`: the P2SH deposit output carries exactly
`outAmount + fee2` with `outAmount = fromAmount / COIN`, followed —
exactly when the selected input total exceeds `outAmount + fee1 + fee2` —
by a change output of `inAmount - outAmount - fee1 - fee2` to the address
of the largest selected input UTXO. -/
theorem depositOutputsShape :
    (∀ env app (xtx : TransactionDescr) (p : CreateAPacket) ins outs,
      (processTransactionCreateA env app (some xtx) p).depositCall =
        some (ins, outs) →
      ∃ p2sh, outs =
        depositOutputs p2sh (largestUtxo (depositSelection env xtx).1).address
          ((xtx.fromAmount : ℚ) / COIN) (depositSelection env xtx).2.2
          (env.minTxFee2 xtx.fromCurrency 1 1)
          (depositSelection env xtx).2.1) ∧
    (∀ env app (xtx : TransactionDescr) (p : CreateBPacket) ins outs,
      (processTransactionCreateB env app (some xtx) p).depositCall =
        some (ins, outs) →
      ∃ p2sh, outs =
        depositOutputs p2sh (largestUtxo (depositSelection env xtx).1).address
          ((xtx.fromAmount : ℚ) / COIN) (depositSelection env xtx).2.2
          (env.minTxFee2 xtx.fromCurrency 1 1)
          (depositSelection env xtx).2.1) := by
  constructor
  · intro env app xtx p ins outs hdc
    unfold processTransactionCreateA at hdc
    dsimp only at hdc
    repeat' split at hdc
    all_goals
      first
      | simp [dropT, cancelPath_depositCall] at hdc
      | (have h2 := createATail_depositCall _ _ _ _ _ _ _ _ _ _ hdc; simp only [Option.some.injEq, Prod.mk.injEq] at h2; exact ⟨_, h2.2⟩)
  · intro env app xtx p ins outs hdc
    unfold processTransactionCreateB at hdc
    dsimp only at hdc
    repeat' split at hdc
    all_goals
      first
      | simp [dropT, cancelPath_depositCall] at hdc
      | skip
    unfold createBCheck at hdc
    dsimp only at hdc
    repeat' split at hdc
    all_goals
      first
      | simp [dropT, cancelPath_depositCall] at hdc
      | skip
    unfold createBDeposit at hdc
    dsimp only at hdc
    repeat' split at hdc
    all_goals
      first
      | simp [dropT, cancelPath_depositCall] at hdc
      | (have h2 := createBTail_depositCall _ _ _ _ _ _ _ _ _ _ hdc; simp only [Option.some.injEq, Prod.mk.injEq] at h2; exact ⟨_, h2.2⟩)

/-- Input fixtures for the C9 witness. -/
def u1C9 : UtxoEntry := ⟨"t1", 0, [5], "addrone", 2, [6]⟩

/-- The larger of the two C9 input coins; change goes to its address. -/
def u2C9 : UtxoEntry := ⟨"t2", 1, [7], "addrtwo", 5, [8]⟩

/-- Order fixture for the C9 witness: a local Maker about to build its
deposit from two reserved coins. -/
def xtxC9 : TransactionDescr :=
  { blankDescr with id := 9, sPubKey := [31], mPubKey := [32], xPubKey := [33],
                    role := 'A', state := .trHold, isLocal := true,
                    fromCurrency := "BLOCK", toCurrency := "LTC",
                    fromAmount := 300000000, toAmount := 1,
                    usedCoins := [u1C9, u2C9] }

/-- CreateA packet fixture for the C9 witness. -/
def pktC9 : CreateAPacket := ⟨[2], 9, [34], ⟨[31], true⟩⟩

/-- Witness for C9 at a concrete input: the deposit is built with the P2SH
output carrying `3 = fromAmount / COIN` (fees are zero) and a change output
of `7 - 3 = 4` to the address of the largest input coin. -/
theorem depositOutputsShape_witness :
    (processTransactionCreateA envW appW (some xtxC9) pktC9).depositCall =
      some ([⟨"t1", 0, 2⟩, ⟨"t2", 1, 5⟩], [("p2sh", 3), ("addrtwo", 4)]) ∧
    ∃ p2sh, [(("p2sh" : String), (3 : ℚ)), ("addrtwo", 4)] =
      depositOutputs p2sh (largestUtxo (depositSelection envW xtxC9).1).address
        ((xtxC9.fromAmount : ℚ) / COIN) (depositSelection envW xtxC9).2.2
        (envW.minTxFee2 xtxC9.fromCurrency 1 1)
        (depositSelection envW xtxC9).2.1 := by
  have h : (processTransactionCreateA envW appW (some xtxC9) pktC9).depositCall =
      some ([⟨"t1", 0, 2⟩, ⟨"t2", 1, 5⟩], [("p2sh", 3), ("addrtwo", 4)]) := by
    norm_num +decide [processTransactionCreateA, createATail, selectCoins,
      selectCoinsGo, largestUtxo, depositOutputs, envW, xtxC9, pktC9, u1C9,
      u2C9, blankDescr, PacketSig.verify, dropT, cancelPath, COIN, emptyUtxo]
  exact ⟨h, depositOutputsShape.1 envW appW xtxC9 pktC9 _ _ h⟩

/-- C2: when the Hub processes an `xbcTransaction` packet for a new order
(no pending entry with that id), it recomputes the order id as the hash of
source address, source currency and amount, destination address, currency
and amount, timestamp, block hash and the first UTXO signature; if the
recomputed hash differs from the id carried in the packet, the packet is
dropped and the exchange registry is left unchanged. -/
theorem hubOrderIdRecomputed (env : ClientEnv) (e : Exchange)
    (p : TransactionPacket)
    (hp : e.pendingTransaction p.id = none)
    (hne : env.hashFn ⟨env.fromXAddr p.scurrency p.saddr, p.scurrency,
        p.samount, env.fromXAddr p.dcurrency p.daddr, p.dcurrency, p.damount,
        p.timestamp, p.blockHash,
        ((filterUtxos env p.scurrency p.utxos).1.headD emptyUtxo).signature⟩
      ≠ p.id) :
    processTransaction env e p = dropH e := by
  unfold processTransaction
  rcases hf : filterUtxos env p.scurrency p.utxos with ⟨ui, ca⟩
  simp only [hf] at hne ⊢
  simp only [hp]
  split_ifs <;> first | rfl | contradiction

/-- A started exchange registry with no orders, for the C2 witness. -/
def exchC2 : Exchange := ⟨true, true, [], []⟩

/-- Packet fixture for the C2 witness: its carried id `7` differs from the
recomputed hash (`envW` hashes everything to `99`). -/
def pktC2 : TransactionPacket :=
  ⟨7, [1], "BLOCK", 100000000, [2], "LTC", 200000000, 11, 12, [u1C9],
   ⟨[41], true⟩⟩

/-- Witness for C2 at a concrete input: the packet id `7` differs from the
recomputed hash `99`, so the packet is dropped. -/
theorem hubOrderIdRecomputed_witness :
    exchC2.pendingTransaction pktC2.id = none ∧
    envW.hashFn ⟨envW.fromXAddr pktC2.scurrency pktC2.saddr, pktC2.scurrency,
      pktC2.samount, envW.fromXAddr pktC2.dcurrency pktC2.daddr,
      pktC2.dcurrency, pktC2.damount, pktC2.timestamp, pktC2.blockHash,
      ((filterUtxos envW pktC2.scurrency pktC2.utxos).1.headD
        emptyUtxo).signature⟩ ≠ pktC2.id ∧
    processTransaction envW exchC2 pktC2 = dropH exchC2 :=
  ⟨by decide, by decide,
   hubOrderIdRecomputed envW exchC2 pktC2 (by decide) (by decide)⟩

/-- Looking an order up after `updateActive` sees the updated record. -/
lemma updateActive_transaction (e : Exchange) (id : Nat) (f : HubTx → HubTx) :
    (e.updateActive id f).transaction id = (e.transaction id).map f := by
  unfold Exchange.updateActive Exchange.transaction
  dsimp only
  induction e.activeTxs with
  | nil => rfl
  | cons hd tl ih =>
    simp only [List.map_cons]
    by_cases h : hd.1 = id
    · rw [if_pos h, List.find?_cons_of_pos _ (by simp [h]),
        List.find?_cons_of_pos _ (by simp [h])]
      simp
    · rw [if_neg h, List.find?_cons_of_neg _ (by simp [h]),
        List.find?_cons_of_neg _ (by simp [h])]
      exact ih

/-- A Hub `Accepting` for an order that already has an active record is
dropped at the very first lookup. -/
lemma accepting_drop_of_active (env : ClientEnv) (e : Exchange)
    (p : AcceptingPacket) (h : (e.transaction p.orderId).isSome) :
    processTransactionAccepting env e p = dropH e := by
  unfold processTransactionAccepting
  by_cases c1 : e.started = true
  case neg => rw [if_pos c1]
  rw [if_neg (not_not_intro c1)]
  by_cases c2 : p.destAddr = env.myid
  case neg => rw [if_pos c2]
  rw [if_neg (not_not_intro c2), if_pos h]

/-- When the Hub replies `TransactionHold`, the order has been moved to the
active set in state `joined`. -/
lemma accepting_hold_joined (env : ClientEnv) (e : Exchange)
    (p : AcceptingPacket) (out : HubOut)
    (hout : processTransactionAccepting env e p = out)
    (hmem : SentPacket.mk .xbcTransactionHold p.orderId ∈ out.sent) :
    ∃ t, out.exch.transaction p.orderId = some t ∧ t.state = .hubJoined := by
  unfold processTransactionAccepting at hout
  by_cases c1 : e.started = true
  case neg => rw [if_pos c1] at hout; subst hout; simp [dropH] at hmem
  rw [if_neg (not_not_intro c1)] at hout
  by_cases c2 : p.destAddr = env.myid
  case neg => rw [if_pos c2] at hout; subst hout; simp [dropH] at hmem
  rw [if_neg (not_not_intro c2)] at hout
  by_cases c3 : (e.transaction p.orderId).isSome = true
  case pos => rw [if_pos c3] at hout; subst hout; simp [dropH] at hmem
  rw [if_neg c3] at hout
  by_cases c4 : p.sig.sigOk = true
  case neg => rw [if_pos c4] at hout; subst hout; simp [dropH] at hmem
  rw [if_neg (not_not_intro c4)] at hout
  by_cases c5 : env.hasConnector p.scurrency = true
  case neg => rw [if_pos c5] at hout; subst hout; simp [dropH] at hmem
  rw [if_neg (not_not_intro c5)] at hout
  rcases hpd : e.pendingTransaction p.orderId with _ | tpd
  · rw [hpd] at hout; dsimp only at hout; subst hout; simp [dropH] at hmem
  rw [hpd] at hout
  dsimp only at hout
  by_cases c6 : env.hasConnector tpd.aCurrency = true
  case neg => rw [if_pos c6] at hout; subst hout; simp [dropH] at hmem
  rw [if_neg (not_not_intro c6)] at hout
  by_cases c7 : tpd.aUtxos.all (fun entry =>
      (env.getTxOut tpd.aCurrency entry.txId entry.vout).isSome) = true
  case neg => rw [if_pos c7] at hout; subst hout; simp [dropH] at hmem
  rw [if_neg (not_not_intro c7)] at hout
  rcases hf : filterUtxos env p.scurrency p.utxos with ⟨ui, ca⟩
  rw [hf] at hout
  dsimp only at hout
  by_cases c8 : ca * COIN < (p.samount : ℚ)
  case pos => rw [if_pos c8] at hout; subst hout; simp [dropH] at hmem
  rw [if_neg c8] at hout
  by_cases c9 : env.isDustAmount p.scurrency ((p.samount : ℚ) / COIN) = true ∨
      env.isDustAmount p.scurrency (ca - (p.samount : ℚ) / COIN) = true
  case pos => rw [if_pos c9] at hout; subst hout; simp [dropH] at hmem
  rw [if_neg c9] at hout
  by_cases c10 : env.checkUtxoItems p.orderId ui = true
  case neg => rw [if_pos c10] at hout; subst hout; simp [dropH] at hmem
  rw [if_neg (not_not_intro c10)] at hout
  rcases hacc : e.acceptTransaction p.orderId p.saddr p.scurrency p.samount
      p.daddr p.dcurrency p.damount p.sig.pubkey with ⟨e1, acc⟩
  rw [hacc] at hout
  dsimp only at hout
  by_cases c11 : acc = true
  case neg => rw [if_pos c11] at hout; subst hout; simp [dropH] at hmem
  rw [if_neg (not_not_intro c11)] at hout
  rcases hat : e1.transaction p.orderId with _ | tr
  · rw [hat] at hout; dsimp only at hout; subst hout; simp [dropH] at hmem
  rw [hat] at hout
  dsimp only at hout
  by_cases c12 : tr.state = HubState.hubJoined
  case neg => rw [if_pos c12] at hout; subst hout; simp [dropH] at hmem
  rw [if_neg (not_not_intro c12)] at hout
  subst hout
  rw [updateActive_transaction, hat]
  exact ⟨{ tr with bUtxos := ui }, by simp, c12⟩

/-- C3: for every order id at most one `xbcTransactionAccepting` is
accepted by the Hub: an `Accepting` for an id that already has an active
(accepted) record is dropped without effect; a valid first `Accepting`
that triggers the `TransactionHold` broadcast leaves the order active in
state `joined`; hence any further `Accepting` for the same id is dropped
without effect. -/
theorem acceptingAtMostOnce :
    (∀ env (e : Exchange) (p : AcceptingPacket),
      (e.transaction p.orderId).isSome →
      processTransactionAccepting env e p = dropH e) ∧
    (∀ env (e : Exchange) (p : AcceptingPacket),
      SentPacket.mk .xbcTransactionHold p.orderId ∈
        (processTransactionAccepting env e p).sent →
      ∃ t, (processTransactionAccepting env e p).exch.transaction p.orderId
          = some t ∧ t.state = .hubJoined) ∧
    (∀ env (e : Exchange) (p pnext : AcceptingPacket),
      pnext.orderId = p.orderId →
      SentPacket.mk .xbcTransactionHold p.orderId ∈
        (processTransactionAccepting env e p).sent →
      processTransactionAccepting env
          (processTransactionAccepting env e p).exch pnext =
        dropH (processTransactionAccepting env e p).exch) := by
  refine ⟨fun env e p h => accepting_drop_of_active env e p h,
    fun env e p hmem => accepting_hold_joined env e p _ rfl hmem,
    fun env e p pnext hid hmem => ?_⟩
  obtain ⟨t, ht, -⟩ := accepting_hold_joined env e p _ rfl hmem
  refine accepting_drop_of_active env _ pnext ?_
  rw [hid, ht]
  rfl

/-- The pending Maker order joined by the C3 witness. -/
def tC3 : HubTx :=
  { id := 5, state := .hubNew, aAddress := [9], aDestination := [8]
    aCurrency := "BLOCK", aAmount := 50000000, aPk1 := [10], aUtxos := []
    bAddress := [], bDestination := [], bCurrency := "LTC"
    bAmount := 100000000, bPk1 := [], bUtxos := []
    blockHash := 0, createdTime := 0 }

/-- A started exchange registry holding the pending order `tC3`. -/
def exchC3 : Exchange := ⟨true, true, [(5, tC3)], []⟩

/-- First `Accepting` packet for order 5 (matching the pending order). -/
def pktC3 : AcceptingPacket :=
  ⟨[1], 5, [3], "LTC", 100000000, [4], "BLOCK", 50000000, [u1C9],
   ⟨[42], true⟩⟩

/-- A second `Accepting` packet for the same order id from another Taker. -/
def p2C3 : AcceptingPacket :=
  ⟨[1], 5, [13], "LTC", 100000000, [14], "BLOCK", 50000000, [u1C9],
   ⟨[43], true⟩⟩

/-- Witness for C3 at a concrete input: the first `Accepting` for order 5
triggers the `TransactionHold` broadcast, and the second `Accepting` for
the same id is then dropped without effect. -/
theorem acceptingAtMostOnce_witness :
    p2C3.orderId = pktC3.orderId ∧
    SentPacket.mk .xbcTransactionHold pktC3.orderId ∈
      (processTransactionAccepting envW exchC3 pktC3).sent ∧
    processTransactionAccepting envW
        (processTransactionAccepting envW exchC3 pktC3).exch p2C3 =
      dropH (processTransactionAccepting envW exchC3 pktC3).exch := by
  have hmem : SentPacket.mk .xbcTransactionHold pktC3.orderId ∈
      (processTransactionAccepting envW exchC3 pktC3).sent := by
    norm_num +decide [processTransactionAccepting, filterUtxos, exchC3, pktC3,
      tC3, u1C9, envW, emptyUtxo, COIN, dropH, Exchange.transaction,
      Exchange.pendingTransaction, Exchange.acceptTransaction,
      Exchange.updateActive, List.find?]
  exact ⟨rfl, hmem, acceptingAtMostOnce.2.2 envW exchC3 pktC3 p2C3 rfl hmem⟩

end XBridge
